import Mathlib

/-!
Verification of the Ada interaction-engine core: a shallow embedding of the
fan-out voice bus (`app/voice_broadcast_manager.py`), the session registry
(`app/session_manager.py`), the per-connection worker
(`app/per_connection_processor.py`), the enhancement decider fallbacks
(`src/mcp/enhanced_mcp_client.py`), connection teardown
(`app/connection_manager.py`) and the control-channel handshake
(`app/routes/per_connection_chat.py`), with theorems settling the spec's
claims about them.
-/

namespace Ada

/-- Python truthiness of an optional string value: `None` and the empty
string are falsy, every other string is truthy. -/
def truthy : Option String → Bool
  | none => false
  | some s => if s = "" then false else true

/-- Python `a or b` on optional strings: the first operand when it is
truthy, otherwise the second operand. -/
def pyOr (a b : Option String) : Option String :=
  if truthy a then a else b

/-- Normalisation of an optional string id to its "present" value: a field
counts as carrying an id exactly when it holds a non-empty string, mirroring
the source's Python truthiness tests on `message.get(...)` values. -/
def presentStr : Option String → Option String
  | none => none
  | some s => if s = "" then none else some s

theorem truthy_iff (o : Option String) :
    truthy o = true ↔ ∃ s, o = some s ∧ s ≠ "" := by
  cases o with
  | none => simp [truthy]
  | some s =>
    simp only [truthy]
    by_cases h : s = "" <;> simp [h]

theorem presentStr_eq_some (o : Option String) (s : String) :
    presentStr o = some s ↔ o = some s ∧ s ≠ "" := by
  cases o with
  | none => simp [presentStr]
  | some t =>
    simp only [presentStr]
    by_cases h : t = ""
    · subst h
      simp only [if_pos rfl, Option.some.injEq]
      constructor
      · intro hx; cases hx
      · rintro ⟨ht, hs⟩
        exact absurd ht.symm hs
    · simp only [if_neg h, Option.some.injEq]
      constructor
      · intro hx
        subst hx
        exact ⟨rfl, h⟩
      · rintro ⟨ht, _⟩
        exact ht

theorem truthy_eq_isSome_presentStr (o : Option String) :
    truthy o = (presentStr o).isSome := by
  cases o with
  | none => rfl
  | some s =>
    simp only [truthy, presentStr]
    by_cases h : s = "" <;> simp [h]

/-! ## Association lists

The Python dictionaries of the registries are embedded as association
lists of string keys.  Lookup finds the first entry with the key, `eraseA`
(dict `pop`) removes every entry with the key, and `insertA` (dict
assignment) overwrites an existing entry in place or appends a new one. -/

/-- Dictionary lookup: value of the first entry carrying the key. -/
def lookupA {α : Type} : List (String × α) → String → Option α
  | [], _ => none
  | p :: rest, k => if p.1 = k then some p.2 else lookupA rest k

/-- Dictionary `pop`: remove the entries carrying the key. -/
def eraseA {α : Type} : List (String × α) → String → List (String × α)
  | [], _ => []
  | p :: rest, k => if p.1 = k then eraseA rest k else p :: eraseA rest k

/-- Dictionary assignment: replace the value of an existing key in place,
or append a fresh entry when the key is absent. -/
def insertA {α : Type} : List (String × α) → String → α → List (String × α)
  | [], k, v => [(k, v)]
  | p :: rest, k, v =>
    if p.1 = k then (k, v) :: insertA rest k v else p :: insertA rest k v

theorem lookupA_eraseA {α : Type} (m : List (String × α)) (k k2 : String) :
    lookupA (eraseA m k) k2 = if k2 = k then none else lookupA m k2 := by
  induction m with
  | nil =>
    simp only [eraseA, lookupA]
    split <;> rfl
  | cons p rest ih =>
    simp only [eraseA, lookupA]
    by_cases hpk : p.1 = k
    · rw [if_pos hpk, ih]
      by_cases hk2 : k2 = k
      · rw [if_pos hk2, if_pos hk2]
      · rw [if_neg hk2, if_neg hk2, if_neg (fun h : p.1 = k2 => hk2 (h ▸ hpk))]
    · rw [if_neg hpk]
      simp only [lookupA]
      by_cases hp2 : p.1 = k2
      · rw [if_pos hp2, if_pos hp2,
          if_neg (fun h : k2 = k => hpk (hp2.trans h))]
      · rw [if_neg hp2, if_neg hp2, ih]

theorem lookupA_insertA {α : Type} (m : List (String × α)) (k k2 : String) (v : α) :
    lookupA (insertA m k v) k2 = if k2 = k then some v else lookupA m k2 := by
  induction m with
  | nil =>
    simp only [insertA, lookupA]
    by_cases hk2 : k2 = k
    · rw [if_pos hk2, if_pos hk2.symm]
    · rw [if_neg hk2, if_neg (fun h : k = k2 => hk2 h.symm)]
  | cons p rest ih =>
    simp only [insertA]
    by_cases hpk : p.1 = k
    · rw [if_pos hpk]
      simp only [lookupA]
      by_cases hk2 : k2 = k
      · rw [if_pos hk2.symm, if_pos hk2]
      · rw [if_neg (fun h : k = k2 => hk2 h.symm), ih, if_neg hk2, if_neg hk2,
          if_neg (fun h : p.1 = k2 => hk2 ((hpk.symm.trans h).symm))]
    · rw [if_neg hpk]
      simp only [lookupA]
      by_cases hp2 : p.1 = k2
      · rw [if_pos hp2, if_pos hp2,
          if_neg (fun h : k2 = k => hpk (hp2.trans h))]
      · rw [if_neg hp2, if_neg hp2, ih]

/-! ## Fan-out voice bus

Embedding of `app/voice_broadcast_manager.py`: `VoiceSubscription`,
`VoiceSubscription.matches_message`, `VoiceBroadcastManager._deliver_message`
and `VoiceBroadcastManager.broadcast`.  A broadcast message is a JSON
dictionary; the fields the bus reads are embedded as optional strings
(`none` models an absent key). -/

/-- Broadcast message as read by the bus: `type` (defaulting to the empty
string when absent), and the optional `connection_id`, `threadId`,
`thread_id` and `id` keys. -/
structure VoiceMessage where
  type : String := ""
  connection_id : Option String := none
  threadId : Option String := none
  thread_id : Option String := none
  id : Option String := none
deriving Repr, DecidableEq

/-- Voice message kinds the bus fans out (`voice_message_types` in
`matches_message`). -/
def voiceMessageTypes : List String :=
  ["user_transcription", "immediate_voice_response", "voice_response"]

/-- Subscription of one control channel on the bus.  The `asyncio.Queue` is
embedded as the list of queued messages together with its `maxsize`; an
`asyncio` queue with `maxsize = 0` is unbounded. -/
structure VoiceSubscription where
  connection_id : String
  queue : List VoiceMessage := []
  queue_maxsize : Nat := 100
  voice_thread_id : Option String := none
  message_count : Nat := 0
deriving Repr, DecidableEq

/-- Translation of `VoiceSubscription.matches_message`.  The Python guards
`if message_connection_id and ...` and `if message_thread_id:` test
truthiness, so absent keys and empty strings skip the corresponding
check. -/
def VoiceSubscription.matches_message (sub : VoiceSubscription) (msg : VoiceMessage) : Bool :=
  if !(voiceMessageTypes.contains msg.type) then false
  else if truthy msg.connection_id && !(msg.connection_id == some sub.connection_id) then
    false
  else
    if truthy (pyOr msg.threadId msg.thread_id) then
      if truthy sub.voice_thread_id
          && !((pyOr msg.threadId msg.thread_id) == sub.voice_thread_id) then
        false
      else true
    else true

/-- Condition under which `asyncio.Queue.put_nowait` raises `QueueFull`:
the queue is bounded and at capacity. -/
def queueFull (sub : VoiceSubscription) : Bool :=
  decide (0 < sub.queue_maxsize ∧ sub.queue_maxsize ≤ sub.queue.length)

/-- Translation of `_deliver_message`: a non-blocking `put_nowait` that
fails (raises `QueueFull`, here `none`) exactly when the queue is full; on
success the message is appended and the counters updated. -/
def deliverMessage (sub : VoiceSubscription) (msg : VoiceMessage) : Option VoiceSubscription :=
  if queueFull sub then
    none
  else
    some { sub with
      queue := sub.queue ++ [msg],
      message_count := sub.message_count + 1 }

/-- Delivery counters of the bus (`VoiceBroadcastManager._stats`; the
`active_subscribers` entry merely mirrors the subscriber count and is kept
out of the broadcast embedding). -/
structure BroadcastStats where
  total_broadcasts : Nat := 0
  total_deliveries : Nat := 0
  failed_deliveries : Nat := 0
deriving Repr, DecidableEq

/-- Outcome of a broadcast: the updated subscriptions, the returned count
of successful deliveries, and the updated counters. -/
structure BroadcastOutcome where
  subs : List VoiceSubscription
  delivered : Nat
  stats : BroadcastStats
deriving Repr, DecidableEq

/-- Effect of one broadcast on one subscription: non-matching subscriptions
are untouched (`none` tag), matching ones are delivered to with either
success (`some true`) or a full-queue drop (`some false`). -/
def broadcastStep (msg : VoiceMessage) (sub : VoiceSubscription) :
    VoiceSubscription × Option Bool :=
  if sub.matches_message msg then
    match deliverMessage sub msg with
    | some sub2 => (sub2, some true)
    | none => (sub, some false)
  else (sub, none)

/-- Translation of `VoiceBroadcastManager.broadcast`: the early returns for
no subscribers and no matching subscribers leave the counters untouched;
otherwise every matching subscription is delivered to independently
(`asyncio.gather` with `return_exceptions=True`), the successes are counted
and returned, and the counters are bumped. -/
def broadcast (subs : List VoiceSubscription) (stats : BroadcastStats)
    (msg : VoiceMessage) : BroadcastOutcome :=
  if subs.isEmpty then ⟨subs, 0, stats⟩
  else if (subs.filter (fun s => s.matches_message msg)).isEmpty then ⟨subs, 0, stats⟩
  else
    let results := subs.map (broadcastStep msg)
    let successes := (results.filter (fun r => r.2 == some true)).length
    let failures := (results.filter (fun r => r.2 == some false)).length
    ⟨results.map Prod.fst, successes,
      { total_broadcasts := stats.total_broadcasts + 1,
        total_deliveries := stats.total_deliveries + successes,
        failed_deliveries := stats.failed_deliveries + failures }⟩

/-- Delivery predicate of the spec, written from its words: the frame's
kind is in the voice-bus kind set; the frame's recipient connection id,
when present, equals the subscription's connection id; and the frame's
thread id (its `threadId` or `thread_id` key), when present and when the
subscription's thread id is non-null, equals the subscription's thread
id. -/
def specVoiceDelivery (sub : VoiceSubscription) (msg : VoiceMessage) : Prop :=
  msg.type ∈ voiceMessageTypes ∧
  (∀ c, presentStr msg.connection_id = some c → c = sub.connection_id) ∧
  (∀ t st, presentStr (pyOr msg.threadId msg.thread_id) = some t →
    presentStr sub.voice_thread_id = some st → t = st)

theorem connCheck_false_iff (o : Option String) (cid : String) :
    (truthy o && !(o == some cid)) = false ↔
      ∀ c, presentStr o = some c → c = cid := by
  cases o with
  | none =>
    simp [truthy, presentStr]
  | some s =>
    by_cases hs : s = ""
    · subst hs
      simp [truthy, presentStr]
    · simp only [truthy, if_neg hs, presentStr, Bool.true_and,
        Bool.not_eq_false', beq_iff_eq, Option.some.injEq]
      constructor
      · intro h c hc
        exact hc ▸ h
      · intro h
        exact h s rfl

theorem threadCheck_true_iff (mt so : Option String) :
    (if truthy mt then
        (if truthy so && !(mt == so) then false else true)
      else true) = true ↔
      ∀ t st, presentStr mt = some t → presentStr so = some st → t = st := by
  cases hmt : truthy mt with
  | false =>
    rw [if_neg (by simp [hmt])]
    constructor
    · intro _ t st ht _
      exfalso
      have hx := truthy_eq_isSome_presentStr mt
      rw [hmt, ht] at hx
      cases hx
    · intro _; rfl
  | true =>
    rw [if_pos rfl]
    obtain ⟨t0, hmt0, ht0⟩ := (truthy_iff mt).mp hmt
    subst hmt0
    have hpmt : presentStr (some t0) = some t0 := by
      simp [presentStr, ht0]
    cases hso : truthy so with
    | false =>
      rw [Bool.false_and, if_neg (by simp)]
      constructor
      · intro _ t st _ hst
        exfalso
        have hx := truthy_eq_isSome_presentStr so
        rw [hso, hst] at hx
        cases hx
      · intro _; rfl
    | true =>
      obtain ⟨s0, hso0, hs0⟩ := (truthy_iff so).mp hso
      subst hso0
      have hpso : presentStr (some s0) = some s0 := by
        simp [presentStr, hs0]
      rw [Bool.true_and]
      by_cases heq : t0 = s0
      · subst heq
        rw [show (!(some t0 == some t0)) = false by simp, if_neg (by simp)]
        constructor
        · intro _ t st ht hst
          rw [hpmt] at ht
          rw [hpso] at hst
          injection ht with ht
          injection hst with hst
          rw [← ht, ← hst]
        · intro _; rfl
      · rw [show (!(some t0 == some s0)) = true by simp [heq], if_pos rfl]
        constructor
        · intro h; cases h
        · intro h
          exact absurd (h t0 s0 hpmt hpso) heq

theorem matches_message_iff (sub : VoiceSubscription) (msg : VoiceMessage) :
    sub.matches_message msg = true ↔ specVoiceDelivery sub msg := by
  unfold VoiceSubscription.matches_message specVoiceDelivery
  by_cases h1 : msg.type ∈ voiceMessageTypes
  · have h1c : voiceMessageTypes.contains msg.type = true := by
      simpa [List.elem_iff] using h1
    rw [h1c]
    rw [show (!(true : Bool)) = false by rfl, if_neg (by simp)]
    cases h2 : (truthy msg.connection_id && !(msg.connection_id == some sub.connection_id)) with
    | true =>
      rw [if_pos rfl]
      constructor
      · intro h; cases h
      · rintro ⟨_, hconn, _⟩
        rw [(connCheck_false_iff msg.connection_id sub.connection_id).mpr hconn] at h2
        cases h2
    | false =>
      rw [if_neg (by simp)]
      have hconn := (connCheck_false_iff msg.connection_id sub.connection_id).mp h2
      rw [threadCheck_true_iff (pyOr msg.threadId msg.thread_id) sub.voice_thread_id]
      constructor
      · intro h
        exact ⟨h1, hconn, h⟩
      · rintro ⟨_, _, h⟩
        exact h
  · have h1c : voiceMessageTypes.contains msg.type = false := by
      simp [List.elem_iff, h1]
    rw [h1c]
    rw [show (!(false : Bool)) = true by rfl, if_pos rfl]
    constructor
    · intro h; cases h
    · rintro ⟨hmem, _, _⟩
      exact absurd hmem h1

theorem broadcastStep_fst (msg : VoiceMessage) (s : VoiceSubscription) :
    (broadcastStep msg s).1 =
      if s.matches_message msg && !(queueFull s) then
        { s with queue := s.queue ++ [msg], message_count := s.message_count + 1 }
      else s := by
  unfold broadcastStep deliverMessage
  cases hm : s.matches_message msg with
  | false => simp [hm]
  | true =>
    cases hf : queueFull s with
    | false => simp [hm, hf]
    | true => simp [hm, hf]

theorem broadcastStep_snd (msg : VoiceMessage) (s : VoiceSubscription) :
    (broadcastStep msg s).2 =
      if s.matches_message msg then some (!(queueFull s)) else none := by
  unfold broadcastStep deliverMessage
  cases hm : s.matches_message msg with
  | false => simp [hm]
  | true =>
    cases hf : queueFull s with
    | false => simp [hm, hf]
    | true => simp [hm, hf]

theorem map_broadcastStep_of_no_match (msg : VoiceMessage)
    (subs : List VoiceSubscription)
    (h : ∀ s ∈ subs, s.matches_message msg = false) :
    subs.map (fun s => (broadcastStep msg s).1) = subs := by
  induction subs with
  | nil => rfl
  | cons s rest ih =>
    have hs := h s (List.mem_cons_self s rest)
    have h1 : (broadcastStep msg s).1 = s := by
      unfold broadcastStep
      rw [hs]
      simp
    calc (s :: rest).map (fun x => (broadcastStep msg x).1)
        = (broadcastStep msg s).1 :: rest.map (fun x => (broadcastStep msg x).1) := rfl
      _ = s :: rest := by
          rw [h1, ih (fun x hx => h x (List.mem_cons_of_mem s hx))]

theorem broadcast_subs_eq (subs : List VoiceSubscription) (stats : BroadcastStats)
    (msg : VoiceMessage) :
    (broadcast subs stats msg).subs = subs.map (fun s => (broadcastStep msg s).1) := by
  unfold broadcast
  by_cases h1 : subs.isEmpty
  · rw [if_pos h1]
    rw [List.isEmpty_iff] at h1
    subst h1
    rfl
  · rw [if_neg h1]
    by_cases h2 : (subs.filter (fun s => s.matches_message msg)).isEmpty
    · rw [if_pos h2]
      rw [List.isEmpty_iff, List.filter_eq_nil_iff] at h2
      exact (map_broadcastStep_of_no_match msg subs
        (fun s hs => by simpa using h2 s hs)).symm
    · rw [if_neg h2]
      show List.map Prod.fst (List.map (broadcastStep msg) subs) = _
      rw [List.map_map]
      rfl

theorem mem_zip_map {α β : Type} (l : List α) (f : α → β) :
    ∀ p ∈ l.zip (l.map f), p.2 = f p.1 := by
  induction l with
  | nil => intro p hp; cases hp
  | cons a rest ih =>
    intro p hp
    simp only [List.map, List.zip_cons_cons, List.mem_cons] at hp
    cases hp with
    | inl h => rw [h]
    | inr h => exact ih p h

theorem broadcast_delivered_eq (subs : List VoiceSubscription) (stats : BroadcastStats)
    (msg : VoiceMessage) :
    (broadcast subs stats msg).delivered
      = subs.countP (fun s => s.matches_message msg && !(queueFull s)) := by
  unfold broadcast
  by_cases h1 : subs.isEmpty
  · rw [if_pos h1]
    rw [List.isEmpty_iff] at h1
    subst h1
    rfl
  · rw [if_neg h1]
    by_cases h2 : (subs.filter (fun s => s.matches_message msg)).isEmpty
    · rw [if_pos h2]
      rw [List.isEmpty_iff, List.filter_eq_nil_iff] at h2
      symm
      rw [List.countP_eq_zero]
      intro s hs
      have := h2 s hs
      simp only [decide_eq_true_eq] at this
      simp [Bool.eq_false_iff.mpr this]
    · rw [if_neg h2]
      show ((subs.map (broadcastStep msg)).filter (fun r => r.2 == some true)).length = _
      rw [← List.countP_eq_length_filter, List.countP_map]
      apply List.countP_congr
      intro s _
      simp only [Function.comp]
      rw [broadcastStep_snd]
      cases hm : s.matches_message msg with
      | false => simp
      | true =>
        cases hf : queueFull s with
        | false => simp
        | true => simp

theorem broadcast_failed_eq (subs : List VoiceSubscription) (stats : BroadcastStats)
    (msg : VoiceMessage) :
    (broadcast subs stats msg).stats.failed_deliveries
      = stats.failed_deliveries
        + subs.countP (fun s => s.matches_message msg && queueFull s) := by
  unfold broadcast
  by_cases h1 : subs.isEmpty
  · rw [if_pos h1]
    rw [List.isEmpty_iff] at h1
    subst h1
    rfl
  · rw [if_neg h1]
    by_cases h2 : (subs.filter (fun s => s.matches_message msg)).isEmpty
    · rw [if_pos h2]
      rw [List.isEmpty_iff, List.filter_eq_nil_iff] at h2
      have hz : subs.countP (fun s => s.matches_message msg && queueFull s) = 0 := by
        rw [List.countP_eq_zero]
        intro s hs
        have := h2 s hs
        simp only [decide_eq_true_eq] at this
        simp [Bool.eq_false_iff.mpr this]
      rw [hz]
      exact (Nat.add_zero _).symm
    · rw [if_neg h2]
      show stats.failed_deliveries
          + ((subs.map (broadcastStep msg)).filter (fun r => r.2 == some false)).length = _
      rw [← List.countP_eq_length_filter, List.countP_map]
      congr 1
      apply List.countP_congr
      intro s _
      simp only [Function.comp]
      rw [broadcastStep_snd]
      cases hm : s.matches_message msg with
      | false => simp
      | true =>
        cases hf : queueFull s with
        | false => simp
        | true => simp

/-- C1: a broadcast frame is delivered to a subscription of the fan-out bus
iff its kind is one of `user_transcription`, `immediate_voice_response`,
`voice_response`, its connection id (when present, i.e. a non-empty
string) equals the subscription's connection id, and its thread id (when
present and when the subscription's thread id is non-null) equals the
subscription's thread id; consequently no subscription's queue ever gains
a frame carrying a different connection id than its own. -/
theorem voice_bus_delivery_characterisation (sub : VoiceSubscription)
    (msg : VoiceMessage) (subs : List VoiceSubscription) (stats : BroadcastStats) :
    (sub.matches_message msg = true ↔ specVoiceDelivery sub msg) ∧
    (∀ s2 ∈ (broadcast subs stats msg).subs, ∃ s ∈ subs,
      s2.connection_id = s.connection_id ∧
      (s2.queue = s.queue ∨
        (s2.queue = s.queue ++ [msg] ∧ s.matches_message msg = true ∧
          ∀ c, presentStr msg.connection_id = some c → c = s2.connection_id))) := by
  refine ⟨matches_message_iff sub msg, ?_⟩
  intro s2 hs2
  rw [broadcast_subs_eq] at hs2
  obtain ⟨s, hs, hstep⟩ := List.mem_map.mp hs2
  rw [broadcastStep_fst] at hstep
  by_cases hm : (s.matches_message msg && !(queueFull s)) = true
  · rw [if_pos hm] at hstep
    obtain ⟨hmt, _⟩ := Bool.and_eq_true_iff.mp hm
    refine ⟨s, hs, ?_, Or.inr ⟨?_, hmt, ?_⟩⟩
    · rw [← hstep]
    · rw [← hstep]
    · intro c hc
      have hspec := (matches_message_iff s msg).mp hmt
      rw [← hstep]
      exact hspec.2.1 c hc
  · rw [if_neg hm] at hstep
    exact ⟨s, hs, by rw [← hstep], Or.inl (by rw [← hstep])⟩

/-- C3: broadcast delivery is a non-blocking enqueue per subscriber — a
matching subscriber with room gets the frame appended, a matching
subscriber with a full queue drops the frame (its queue is unchanged) and
is counted in the `failed_deliveries` metric, non-matching subscribers are
untouched, the publisher sees no error (broadcast is total), and the
returned count is exactly the number of subscribers whose enqueue
succeeded. -/
theorem broadcast_nonblocking_isolation (subs : List VoiceSubscription)
    (stats : BroadcastStats) (msg : VoiceMessage) :
    (broadcast subs stats msg).delivered
        = subs.countP (fun s => s.matches_message msg && !(queueFull s)) ∧
    (broadcast subs stats msg).stats.failed_deliveries
        = stats.failed_deliveries
          + subs.countP (fun s => s.matches_message msg && queueFull s) ∧
    (broadcast subs stats msg).subs.length = subs.length ∧
    (∀ p ∈ subs.zip (broadcast subs stats msg).subs,
      (p.1.matches_message msg = true → queueFull p.1 = false →
        p.2.queue = p.1.queue ++ [msg]) ∧
      (p.1.matches_message msg = true → queueFull p.1 = true →
        p.2.queue = p.1.queue) ∧
      (p.1.matches_message msg = false → p.2 = p.1)) := by
  refine ⟨broadcast_delivered_eq subs stats msg, broadcast_failed_eq subs stats msg,
    ?_, ?_⟩
  · rw [broadcast_subs_eq, List.length_map]
  · intro p hp
    rw [broadcast_subs_eq] at hp
    have h2 : p.2 = (broadcastStep msg p.1).1 :=
      mem_zip_map subs (fun s => (broadcastStep msg s).1) p hp
    rw [broadcastStep_fst] at h2
    refine ⟨?_, ?_, ?_⟩
    · intro hm hf
      rw [h2, if_pos (by rw [hm, hf]; rfl)]
    · intro hm hf
      rw [h2, if_neg (by rw [hm, hf]; simp)]
    · intro hm
      rw [h2, if_neg (by rw [hm]; simp)]

/-! ## Session registry

Embedding of `app/session_manager.py`: `SessionInfo` and the operations
`register_websocket_connection`, `register_rtc_connection`,
`unregister_ws_connection`, `unregister_rtc_connection` and
`cleanup_stale_sessions` of `SessionManager`.  Timestamps are naturals;
`datetime.now()` is passed in as the `now` argument. -/

/-- Per-session record (`SessionInfo`). -/
structure SessionInfo where
  session_id : String
  current_thread_id : Option String := none
  current_ws_connection_id : Option String := none
  current_rtc_connection_id : Option String := none
  created_at : Nat := 0
  last_activity : Nat := 0
  thread_history : List String := []
deriving Repr, DecidableEq

/-- Mutable state of `SessionManager`: the forward `sessions` map and the
two reverse indexes. -/
structure SessionManagerState where
  sessions : List (String × SessionInfo) := []
  ws_to_session : List (String × String) := []
  rtc_to_session : List (String × String) := []
deriving Repr, DecidableEq

/-- Translation of `register_websocket_connection`: get-or-create the
session, pop the old control id (when truthy) from the reverse index,
install the new control id and thread, extend the thread history when the
thread is new, and point the reverse index at the session.  Always returns
`True`. -/
def registerWebsocketConnection (st : SessionManagerState)
    (session_id ws_connection_id thread_id : String) (now : Nat) :
    SessionManagerState × Bool :=
  let sessions0 :=
    if (lookupA st.sessions session_id).isSome then st.sessions
    else insertA st.sessions session_id
      { session_id := session_id, created_at := now, last_activity := now }
  match lookupA sessions0 session_id with
  | none => (st, true)
  | some session =>
    let ws1 :=
      match session.current_ws_connection_id with
      | some old_ws_id =>
        if old_ws_id = "" then st.ws_to_session else eraseA st.ws_to_session old_ws_id
      | none => st.ws_to_session
    let session2 := { session with
      current_ws_connection_id := some ws_connection_id,
      current_thread_id := some thread_id,
      last_activity := now,
      thread_history :=
        if session.thread_history.contains thread_id then session.thread_history
        else session.thread_history ++ [thread_id] }
    ({ st with
        sessions := insertA sessions0 session_id session2,
        ws_to_session := insertA ws1 ws_connection_id session_id }, true)

/-- Translation of `register_rtc_connection`: fail with `False` when the
session id is unknown (no session is created); otherwise adopt the offered
thread id on mismatch, pop the old media id (when truthy) from the reverse
index, install the new media id and point the reverse index at the
session.  Returns `True` in that case. -/
def registerRtcConnection (st : SessionManagerState)
    (session_id rtc_connection_id thread_id : String) (now : Nat) :
    SessionManagerState × Bool :=
  match lookupA st.sessions session_id with
  | none => (st, false)
  | some session =>
    let session1 :=
      if session.current_thread_id = some thread_id then session
      else { session with current_thread_id := some thread_id }
    let rtc1 :=
      match session1.current_rtc_connection_id with
      | some old_rtc_id =>
        if old_rtc_id = "" then st.rtc_to_session else eraseA st.rtc_to_session old_rtc_id
      | none => st.rtc_to_session
    let session2 := { session1 with
      current_rtc_connection_id := some rtc_connection_id,
      last_activity := now }
    ({ st with
        sessions := insertA st.sessions session_id session2,
        rtc_to_session := insertA rtc1 rtc_connection_id session_id }, true)

/-- Translation of `unregister_ws_connection`: pop the reverse-index entry
(if any); when it names a truthy, known session whose current control id
is this one, null that binding out and return `True`, else return
`False`. -/
def unregisterWsConnection (st : SessionManagerState) (ws_connection_id : String) :
    SessionManagerState × Bool :=
  match lookupA st.ws_to_session ws_connection_id with
  | none => (st, false)
  | some session_id =>
    let st1 := { st with ws_to_session := eraseA st.ws_to_session ws_connection_id }
    if session_id = "" then (st1, false)
    else
      match lookupA st1.sessions session_id with
      | none => (st1, false)
      | some session =>
        if session.current_ws_connection_id = some ws_connection_id then
          let session2 := { session with current_ws_connection_id := none }
          ({ st1 with sessions := insertA st1.sessions session_id session2 }, true)
        else (st1, false)

/-- Translation of `unregister_rtc_connection`, the media-side mirror of
`unregisterWsConnection`. -/
def unregisterRtcConnection (st : SessionManagerState) (rtc_connection_id : String) :
    SessionManagerState × Bool :=
  match lookupA st.rtc_to_session rtc_connection_id with
  | none => (st, false)
  | some session_id =>
    let st1 := { st with rtc_to_session := eraseA st.rtc_to_session rtc_connection_id }
    if session_id = "" then (st1, false)
    else
      match lookupA st1.sessions session_id with
      | none => (st1, false)
      | some session =>
        if session.current_rtc_connection_id = some rtc_connection_id then
          let session2 := { session with current_rtc_connection_id := none }
          ({ st1 with sessions := insertA st1.sessions session_id session2 }, true)
        else (st1, false)

/-- One step of `cleanup_stale_sessions`: pop the session and drop its
truthy current connection ids from the reverse indexes. -/
def cleanupOneSession (st : SessionManagerState) (session_id : String) :
    SessionManagerState × Bool :=
  match lookupA st.sessions session_id with
  | none => (st, false)
  | some session =>
    let st1 := { st with sessions := eraseA st.sessions session_id }
    let st2 :=
      match session.current_ws_connection_id with
      | some w =>
        if w = "" then st1 else { st1 with ws_to_session := eraseA st1.ws_to_session w }
      | none => st1
    let st3 :=
      match session.current_rtc_connection_id with
      | some r =>
        if r = "" then st2 else { st2 with rtc_to_session := eraseA st2.rtc_to_session r }
      | none => st2
    (st3, true)

/-- Translation of `cleanup_stale_sessions`: collect the session ids whose
last activity is older than the maximal age, then pop each of them with
its reverse-index entries, counting the removals. -/
def cleanupStaleSessions (st : SessionManagerState) (now maxAge : Nat) :
    SessionManagerState × Nat :=
  let stale := (st.sessions.filter (fun p => p.2.last_activity + maxAge < now)).map (·.1)
  stale.foldl
    (fun acc sid =>
      let r := cleanupOneSession acc.1 sid
      (r.1, if r.2 then acc.2 + 1 else acc.2))
    (st, 0)

/-- Old truthy control-channel id of a session, the reverse-index key a
re-registration pops. -/
def sessionOldWs (st : SessionManagerState) (sid : String) : Option String :=
  (lookupA st.sessions sid).bind (fun i => presentStr i.current_ws_connection_id)

/-- Old truthy media-channel id of a session, the reverse-index key a
re-registration pops. -/
def sessionOldRtc (st : SessionManagerState) (sid : String) : Option String :=
  (lookupA st.sessions sid).bind (fun i => presentStr i.current_rtc_connection_id)

/-- Session record that `registerWebsocketConnection` starts from: the
existing one, or the freshly created one. -/
def regWsBase (st : SessionManagerState) (sid : String) (now : Nat) : SessionInfo :=
  match lookupA st.sessions sid with
  | some i => i
  | none => { session_id := sid, created_at := now, last_activity := now }

/-- Session record after `registerWebsocketConnection`. -/
def regWsNewInfo (st : SessionManagerState) (sid wid tid : String) (now : Nat) :
    SessionInfo :=
  let base := regWsBase st sid now
  { base with
    current_ws_connection_id := some wid,
    current_thread_id := some tid,
    last_activity := now,
    thread_history :=
      if base.thread_history.contains tid then base.thread_history
      else base.thread_history ++ [tid] }

theorem regWs_state_eq (st : SessionManagerState) (sid wid tid : String) (now : Nat) :
    (registerWebsocketConnection st sid wid tid now).1 =
      { sessions :=
          insertA
            (if (lookupA st.sessions sid).isSome then st.sessions
             else insertA st.sessions sid
               { session_id := sid, created_at := now, last_activity := now })
            sid (regWsNewInfo st sid wid tid now),
        ws_to_session :=
          insertA
            (match sessionOldWs st sid with
             | some o => eraseA st.ws_to_session o
             | none => st.ws_to_session)
            wid sid,
        rtc_to_session := st.rtc_to_session } ∧
    (registerWebsocketConnection st sid wid tid now).2 = true := by
  unfold registerWebsocketConnection regWsNewInfo regWsBase sessionOldWs
  cases h0 : lookupA st.sessions sid with
  | some i =>
    simp only [h0, Option.isSome_some, if_pos, Option.bind_some]
    cases hw : i.current_ws_connection_id with
    | none => simp [presentStr, hw]
    | some w0 =>
      by_cases hw0 : w0 = ""
      · simp [presentStr, hw, hw0]
      · simp [presentStr, hw, hw0]
  | none =>
    simp [h0, lookupA_insertA, presentStr]

theorem regWs_sessions_lookup (st : SessionManagerState) (sid wid tid : String)
    (now : Nat) (s : String) :
    lookupA (registerWebsocketConnection st sid wid tid now).1.sessions s =
      if s = sid then some (regWsNewInfo st sid wid tid now)
      else lookupA st.sessions s := by
  rw [(regWs_state_eq st sid wid tid now).1]
  show lookupA (insertA _ sid _) s = _
  rw [lookupA_insertA]
  by_cases hs : s = sid
  · rw [if_pos hs, if_pos hs]
  · rw [if_neg hs, if_neg hs]
    cases h0 : lookupA st.sessions sid with
    | some i => rw [if_pos (show (some i).isSome = true from rfl)]
    | none =>
      rw [if_neg (show ¬(none : Option SessionInfo).isSome = true by simp),
        lookupA_insertA, if_neg hs]

theorem regWs_ws_lookup (st : SessionManagerState) (sid wid tid : String)
    (now : Nat) (w : String) :
    lookupA (registerWebsocketConnection st sid wid tid now).1.ws_to_session w =
      if w = wid then some sid
      else
        match sessionOldWs st sid with
        | some o => if w = o then none else lookupA st.ws_to_session w
        | none => lookupA st.ws_to_session w := by
  rw [(regWs_state_eq st sid wid tid now).1]
  show lookupA (insertA _ wid sid) w = _
  rw [lookupA_insertA]
  by_cases hw : w = wid
  · rw [if_pos hw, if_pos hw]
  · rw [if_neg hw, if_neg hw]
    cases ho : sessionOldWs st sid with
    | some o => rw [lookupA_eraseA]
    | none => rfl

theorem regWs_rtc_eq (st : SessionManagerState) (sid wid tid : String) (now : Nat) :
    (registerWebsocketConnection st sid wid tid now).1.rtc_to_session =
      st.rtc_to_session := by
  rw [(regWs_state_eq st sid wid tid now).1]

theorem regWs_ws_lookup_old (st : SessionManagerState) (sid wid tid : String)
    (now : Nat) (w o : String) (ho : sessionOldWs st sid = some o) :
    lookupA (registerWebsocketConnection st sid wid tid now).1.ws_to_session w =
      if w = wid then some sid
      else if w = o then none
      else lookupA st.ws_to_session w := by
  rw [regWs_ws_lookup, ho]

theorem regWs_ws_lookup_noold (st : SessionManagerState) (sid wid tid : String)
    (now : Nat) (w : String) (ho : sessionOldWs st sid = none) :
    lookupA (registerWebsocketConnection st sid wid tid now).1.ws_to_session w =
      if w = wid then some sid
      else lookupA st.ws_to_session w := by
  rw [regWs_ws_lookup, ho]

/-- Session record after a successful `register_rtc_connection`. -/
def regRtcNewInfo (i : SessionInfo) (rid tid : String) (now : Nat) : SessionInfo :=
  let i1 :=
    if i.current_thread_id = some tid then i
    else { i with current_thread_id := some tid }
  { i1 with
    current_rtc_connection_id := some rid,
    last_activity := now }

theorem regRtcNewInfo_ws (i : SessionInfo) (rid tid : String) (now : Nat) :
    (regRtcNewInfo i rid tid now).current_ws_connection_id =
      i.current_ws_connection_id := by
  unfold regRtcNewInfo
  split <;> rfl

theorem regRtcNewInfo_rtc (i : SessionInfo) (rid tid : String) (now : Nat) :
    (regRtcNewInfo i rid tid now).current_rtc_connection_id = some rid := by
  unfold regRtcNewInfo
  split <;> rfl

theorem regRtc_unknown (st : SessionManagerState) (sid rid tid : String) (now : Nat)
    (h : lookupA st.sessions sid = none) :
    registerRtcConnection st sid rid tid now = (st, false) := by
  unfold registerRtcConnection
  rw [h]

theorem regRtc_state_eq (st : SessionManagerState) (sid rid tid : String) (now : Nat)
    (i : SessionInfo) (h : lookupA st.sessions sid = some i) :
    (registerRtcConnection st sid rid tid now).1 =
      { sessions := insertA st.sessions sid (regRtcNewInfo i rid tid now),
        ws_to_session := st.ws_to_session,
        rtc_to_session :=
          insertA
            (match presentStr i.current_rtc_connection_id with
             | some o => eraseA st.rtc_to_session o
             | none => st.rtc_to_session)
            rid sid } ∧
    (registerRtcConnection st sid rid tid now).2 = true := by
  unfold registerRtcConnection regRtcNewInfo
  rw [h]
  by_cases ht : i.current_thread_id = some tid
  · rw [if_pos ht]
    cases hr : i.current_rtc_connection_id with
    | none => simp [presentStr, hr, ht]
    | some r0 =>
      by_cases hr0 : r0 = ""
      · simp [presentStr, hr, hr0, ht]
      · simp [presentStr, hr, hr0, ht]
  · rw [if_neg ht]
    cases hr : i.current_rtc_connection_id with
    | none => simp [presentStr, hr, ht]
    | some r0 =>
      by_cases hr0 : r0 = ""
      · simp [presentStr, hr, hr0, ht]
      · simp [presentStr, hr, hr0, ht]

theorem unregWs_unknown (st : SessionManagerState) (wid : String)
    (h : lookupA st.ws_to_session wid = none) :
    unregisterWsConnection st wid = (st, false) := by
  unfold unregisterWsConnection
  rw [h]

theorem unregRtc_unknown (st : SessionManagerState) (rid : String)
    (h : lookupA st.rtc_to_session rid = none) :
    unregisterRtcConnection st rid = (st, false) := by
  unfold unregisterRtcConnection
  rw [h]

theorem unregWs_bound (st : SessionManagerState) (wid sid : String) (i : SessionInfo)
    (hwid : lookupA st.ws_to_session wid = some sid) (hsid : sid ≠ "")
    (hi : lookupA st.sessions sid = some i)
    (hcur : i.current_ws_connection_id = some wid) :
    unregisterWsConnection st wid =
      ({ sessions := insertA st.sessions sid
            { i with current_ws_connection_id := none },
         ws_to_session := eraseA st.ws_to_session wid,
         rtc_to_session := st.rtc_to_session }, true) := by
  unfold unregisterWsConnection
  rw [hwid]
  simp only [if_neg hsid]
  show (match lookupA st.sessions sid with
    | none => _
    | some session => _) = _
  rw [hi]
  simp [hcur]

theorem unregRtc_bound (st : SessionManagerState) (rid sid : String) (i : SessionInfo)
    (hrid : lookupA st.rtc_to_session rid = some sid) (hsid : sid ≠ "")
    (hi : lookupA st.sessions sid = some i)
    (hcur : i.current_rtc_connection_id = some rid) :
    unregisterRtcConnection st rid =
      ({ sessions := insertA st.sessions sid
            { i with current_rtc_connection_id := none },
         ws_to_session := st.ws_to_session,
         rtc_to_session := eraseA st.rtc_to_session rid }, true) := by
  unfold unregisterRtcConnection
  rw [hrid]
  simp only [if_neg hsid]
  show (match lookupA st.sessions sid with
    | none => _
    | some session => _) = _
  rw [hi]
  simp [hcur]

theorem cleanupOne_unknown (st : SessionManagerState) (sid : String)
    (h : lookupA st.sessions sid = none) :
    cleanupOneSession st sid = (st, false) := by
  unfold cleanupOneSession
  rw [h]

theorem cleanupOne_known (st : SessionManagerState) (sid : String) (i : SessionInfo)
    (h : lookupA st.sessions sid = some i) :
    cleanupOneSession st sid =
      ({ sessions := eraseA st.sessions sid,
         ws_to_session :=
           match presentStr i.current_ws_connection_id with
           | some w => eraseA st.ws_to_session w
           | none => st.ws_to_session,
         rtc_to_session :=
           match presentStr i.current_rtc_connection_id with
           | some r => eraseA st.rtc_to_session r
           | none => st.rtc_to_session }, true) := by
  unfold cleanupOneSession
  rw [h]
  cases hw : i.current_ws_connection_id with
  | none =>
    cases hr : i.current_rtc_connection_id with
    | none => simp [presentStr, hw, hr]
    | some r0 =>
      by_cases hr0 : r0 = "" <;> simp [presentStr, hw, hr, hr0]
  | some w0 =>
    by_cases hw0 : w0 = ""
    · cases hr : i.current_rtc_connection_id with
      | none => simp [presentStr, hw, hw0, hr]
      | some r0 =>
        by_cases hr0 : r0 = "" <;> simp [presentStr, hw, hw0, hr, hr0]
    · cases hr : i.current_rtc_connection_id with
      | none => simp [presentStr, hw, hw0, hr]
      | some r0 =>
        by_cases hr0 : r0 = "" <;> simp [presentStr, hw, hw0, hr, hr0]

/-- Mutual consistency of the registry's forward and reverse indexes, as
the spec states it: a reverse index maps a channel id to a session iff the
session's current binding of that kind is that channel id. -/
structure RegistryConsistent (st : SessionManagerState) : Prop where
  ws_iff : ∀ w s, lookupA st.ws_to_session w = some s ↔
    ∃ i, lookupA st.sessions s = some i ∧ i.current_ws_connection_id = some w
  rtc_iff : ∀ r s, lookupA st.rtc_to_session r = some s ↔
    ∃ i, lookupA st.sessions s = some i ∧ i.current_rtc_connection_id = some r

/-- Wellformedness of the registry: session keys and bound channel ids are
non-empty strings, so the source's truthiness guards never misfire. -/
structure RegistryWF (st : SessionManagerState) : Prop where
  sid_ne : ∀ s i, lookupA st.sessions s = some i → s ≠ ""
  ws_ne : ∀ s i w, lookupA st.sessions s = some i →
    i.current_ws_connection_id = some w → w ≠ ""
  rtc_ne : ∀ s i r, lookupA st.sessions s = some i →
    i.current_rtc_connection_id = some r → r ≠ ""

/-- Combined registry invariant. -/
def RegistryInv (st : SessionManagerState) : Prop :=
  RegistryConsistent st ∧ RegistryWF st

theorem registryInv_empty : RegistryInv {} := by
  constructor
  · constructor
    · intro w s
      constructor
      · intro h; cases h
      · rintro ⟨i, hi, _⟩; cases hi
    · intro r s
      constructor
      · intro h; cases h
      · rintro ⟨i, hi, _⟩; cases hi
  · constructor
    · intro s i h; cases h
    · intro s i w h; cases h
    · intro s i r h; cases h


theorem regWs_preserves_inv (st : SessionManagerState) (sid wid tid : String)
    (now : Nat) (hInv : RegistryInv st) (hsid : sid ≠ "") (hwid : wid ≠ "")
    (hfresh : ∀ s, lookupA st.ws_to_session wid = some s → s = sid) :
    RegistryInv (registerWebsocketConnection st sid wid tid now).1 := by
  obtain ⟨hC, hW⟩ := hInv
  have hnew_ws : (regWsNewInfo st sid wid tid now).current_ws_connection_id
      = some wid := rfl
  have hnew_rtc : (regWsNewInfo st sid wid tid now).current_rtc_connection_id
      = (regWsBase st sid now).current_rtc_connection_id := rfl
  constructor
  · constructor
    · -- control side of the index consistency
      intro w s
      rw [regWs_sessions_lookup]
      cases ho : sessionOldWs st sid with
      | some o =>
        rw [regWs_ws_lookup_old st sid wid tid now w o ho]
        obtain ⟨iold, hiold, hpo⟩ :
            ∃ i, lookupA st.sessions sid = some i ∧
              presentStr i.current_ws_connection_id = some o := by
          unfold sessionOldWs at ho
          cases h0 : lookupA st.sessions sid with
          | none => rw [h0] at ho; cases ho
          | some i =>
            rw [h0] at ho
            exact ⟨i, rfl, ho⟩
        obtain ⟨hcold, ho_ne⟩ := (presentStr_eq_some _ o).mp hpo
        by_cases hw : w = wid
        · rw [if_pos hw]
          constructor
          · intro h
            injection h with h
            refine ⟨regWsNewInfo st sid wid tid now, ?_, ?_⟩
            · rw [if_pos h.symm]
            · rw [hnew_ws, hw]
          · rintro ⟨i2, hi2, hc2⟩
            by_cases hs : s = sid
            · rw [hs]
            · rw [if_neg hs] at hi2
              have h1 := (hC.ws_iff w s).mpr ⟨i2, hi2, hc2⟩
              rw [hw] at h1
              exact absurd (hfresh s h1) hs
        · rw [if_neg hw]
          by_cases hwo : w = o
          · rw [if_pos hwo]
            constructor
            · intro h; cases h
            · rintro ⟨i2, hi2, hc2⟩
              by_cases hs : s = sid
              · rw [if_pos hs] at hi2
                injection hi2 with hi2
                rw [← hi2, hnew_ws] at hc2
                injection hc2 with hc2
                exact absurd hc2.symm hw
              · rw [if_neg hs] at hi2
                have h1 := (hC.ws_iff w s).mpr ⟨i2, hi2, hc2⟩
                have h2 := (hC.ws_iff w sid).mpr
                  ⟨iold, hiold, by rw [hcold, hwo]⟩
                rw [h1] at h2
                injection h2 with h2
                exact absurd h2 hs
          · rw [if_neg hwo]
            by_cases hs : s = sid
            · rw [if_pos hs]
              constructor
              · intro h
                obtain ⟨i2, hi2, hc2⟩ := (hC.ws_iff w s).mp h
                rw [hs] at hi2
                rw [hiold] at hi2
                injection hi2 with hi2
                rw [← hi2, hcold] at hc2
                injection hc2 with hc2
                exact absurd hc2.symm hwo
              · rintro ⟨i2, hi2, hc2⟩
                injection hi2 with hi2
                rw [← hi2, hnew_ws] at hc2
                injection hc2 with hc2
                exact absurd hc2.symm hw
            · rw [if_neg hs]
              exact hC.ws_iff w s
      | none =>
        rw [regWs_ws_lookup_noold st sid wid tid now w ho]
        by_cases hw : w = wid
        · rw [if_pos hw]
          constructor
          · intro h
            injection h with h
            refine ⟨regWsNewInfo st sid wid tid now, ?_, ?_⟩
            · rw [if_pos h.symm]
            · rw [hnew_ws, hw]
          · rintro ⟨i2, hi2, hc2⟩
            by_cases hs : s = sid
            · rw [hs]
            · rw [if_neg hs] at hi2
              have h1 := (hC.ws_iff w s).mpr ⟨i2, hi2, hc2⟩
              rw [hw] at h1
              exact absurd (hfresh s h1) hs
        · rw [if_neg hw]
          by_cases hs : s = sid
          · rw [if_pos hs]
            constructor
            · intro h
              obtain ⟨i2, hi2, hc2⟩ := (hC.ws_iff w s).mp h
              rw [hs] at hi2
              exfalso
              have hne := hW.ws_ne sid i2 w hi2 hc2
              have hx : sessionOldWs st sid = some w := by
                unfold sessionOldWs
                rw [hi2]
                show presentStr i2.current_ws_connection_id = some w
                rw [hc2]
                simp [presentStr, hne]
              rw [ho] at hx
              cases hx
            · rintro ⟨i2, hi2, hc2⟩
              injection hi2 with hi2
              rw [← hi2, hnew_ws] at hc2
              injection hc2 with hc2
              exact absurd hc2.symm hw
          · rw [if_neg hs]
            exact hC.ws_iff w s
    · -- media side: the media index and the media bindings are untouched
      intro r s
      rw [regWs_rtc_eq, regWs_sessions_lookup]
      by_cases hs : s = sid
      · rw [if_pos hs]
        rw [hC.rtc_iff r s]
        constructor
        · rintro ⟨i2, hi2, hc2⟩
          refine ⟨regWsNewInfo st sid wid tid now, rfl, ?_⟩
          rw [hnew_rtc]
          unfold regWsBase
          rw [hs] at hi2
          rw [hi2]
          exact hc2
        · rintro ⟨i2, hi2, hc2⟩
          injection hi2 with hi2
          rw [← hi2, hnew_rtc] at hc2
          unfold regWsBase at hc2
          cases h0 : lookupA st.sessions sid with
          | some i0 =>
            rw [h0] at hc2
            exact ⟨i0, by rw [hs]; exact h0, hc2⟩
          | none =>
            rw [h0] at hc2
            cases hc2
      · rw [if_neg hs]
        exact hC.rtc_iff r s
  · constructor
    · intro s i h
      rw [regWs_sessions_lookup] at h
      by_cases hs : s = sid
      · rw [hs]; exact hsid
      · rw [if_neg hs] at h
        exact hW.sid_ne s i h
    · intro s i w h hc
      rw [regWs_sessions_lookup] at h
      by_cases hs : s = sid
      · rw [if_pos hs] at h
        injection h with h
        rw [← h, hnew_ws] at hc
        injection hc with hc
        rw [← hc]
        exact hwid
      · rw [if_neg hs] at h
        exact hW.ws_ne s i w h hc
    · intro s i r h hc
      rw [regWs_sessions_lookup] at h
      by_cases hs : s = sid
      · rw [if_pos hs] at h
        injection h with h
        rw [← h, hnew_rtc] at hc
        unfold regWsBase at hc
        cases h0 : lookupA st.sessions sid with
        | some i0 =>
          rw [h0] at hc
          exact hW.rtc_ne sid i0 r h0 hc
        | none =>
          rw [h0] at hc
          cases hc
      · rw [if_neg hs] at h
        exact hW.rtc_ne s i r h hc

theorem regRtc_sessions_lookup (st : SessionManagerState) (sid rid tid : String)
    (now : Nat) (i : SessionInfo) (h : lookupA st.sessions sid = some i)
    (s : String) :
    lookupA (registerRtcConnection st sid rid tid now).1.sessions s =
      if s = sid then some (regRtcNewInfo i rid tid now)
      else lookupA st.sessions s := by
  rw [(regRtc_state_eq st sid rid tid now i h).1]
  show lookupA (insertA _ sid _) s = _
  rw [lookupA_insertA]

theorem regRtc_ws_eq (st : SessionManagerState) (sid rid tid : String) (now : Nat)
    (i : SessionInfo) (h : lookupA st.sessions sid = some i) :
    (registerRtcConnection st sid rid tid now).1.ws_to_session =
      st.ws_to_session := by
  rw [(regRtc_state_eq st sid rid tid now i h).1]

theorem regRtc_rtc_lookup (st : SessionManagerState) (sid rid tid : String)
    (now : Nat) (i : SessionInfo) (h : lookupA st.sessions sid = some i)
    (r : String) :
    lookupA (registerRtcConnection st sid rid tid now).1.rtc_to_session r =
      if r = rid then some sid
      else
        match presentStr i.current_rtc_connection_id with
        | some o => if r = o then none else lookupA st.rtc_to_session r
        | none => lookupA st.rtc_to_session r := by
  rw [(regRtc_state_eq st sid rid tid now i h).1]
  show lookupA (insertA _ rid sid) r = _
  rw [lookupA_insertA]
  by_cases hr : r = rid
  · rw [if_pos hr, if_pos hr]
  · rw [if_neg hr, if_neg hr]
    cases ho : presentStr i.current_rtc_connection_id with
    | some o => rw [lookupA_eraseA]
    | none => rfl

theorem regRtc_preserves_inv (st : SessionManagerState) (sid rid tid : String)
    (now : Nat) (hInv : RegistryInv st) (hrid : rid ≠ "")
    (hfresh : ∀ s, lookupA st.rtc_to_session rid = some s → s = sid) :
    RegistryInv (registerRtcConnection st sid rid tid now).1 := by
  obtain ⟨hC, hW⟩ := hInv
  cases h0 : lookupA st.sessions sid with
  | none =>
    rw [show (registerRtcConnection st sid rid tid now).1 = st by
      rw [regRtc_unknown st sid rid tid now h0]]
    exact ⟨hC, hW⟩
  | some i =>
    have hnew_rtc := regRtcNewInfo_rtc i rid tid now
    have hnew_ws := regRtcNewInfo_ws i rid tid now
    constructor
    · constructor
      · -- control side untouched
        intro w s
        rw [regRtc_ws_eq st sid rid tid now i h0, regRtc_sessions_lookup st sid rid tid now i h0]
        by_cases hs : s = sid
        · rw [if_pos hs]
          rw [hC.ws_iff w s]
          constructor
          · rintro ⟨i2, hi2, hc2⟩
            refine ⟨regRtcNewInfo i rid tid now, rfl, ?_⟩
            rw [hnew_ws]
            rw [hs] at hi2
            rw [h0] at hi2
            injection hi2 with hi2
            rw [hi2]
            exact hc2
          · rintro ⟨i2, hi2, hc2⟩
            injection hi2 with hi2
            rw [← hi2, hnew_ws] at hc2
            exact ⟨i, by rw [hs]; exact h0, hc2⟩
        · rw [if_neg hs]
          exact hC.ws_iff w s
      · -- media side
        intro r s
        rw [regRtc_rtc_lookup st sid rid tid now i h0,
          regRtc_sessions_lookup st sid rid tid now i h0]
        by_cases hr : r = rid
        · rw [if_pos hr]
          constructor
          · intro h
            injection h with h
            refine ⟨regRtcNewInfo i rid tid now, ?_, ?_⟩
            · rw [if_pos h.symm]
            · rw [hnew_rtc, hr]
          · rintro ⟨i2, hi2, hc2⟩
            by_cases hs : s = sid
            · rw [hs]
            · rw [if_neg hs] at hi2
              have h1 := (hC.rtc_iff r s).mpr ⟨i2, hi2, hc2⟩
              rw [hr] at h1
              exact absurd (hfresh s h1) hs
        · rw [if_neg hr]
          cases ho : presentStr i.current_rtc_connection_id with
          | some o =>
            show (if r = o then none else lookupA st.rtc_to_session r) = some s ↔ _
            obtain ⟨hcold, ho_ne⟩ := (presentStr_eq_some _ o).mp ho
            by_cases hro : r = o
            · rw [if_pos hro]
              constructor
              · intro h; cases h
              · rintro ⟨i2, hi2, hc2⟩
                by_cases hs : s = sid
                · rw [if_pos hs] at hi2
                  injection hi2 with hi2
                  rw [← hi2, hnew_rtc] at hc2
                  injection hc2 with hc2
                  exact absurd hc2.symm hr
                · rw [if_neg hs] at hi2
                  have h1 := (hC.rtc_iff r s).mpr ⟨i2, hi2, hc2⟩
                  have h2 := (hC.rtc_iff r sid).mpr
                    ⟨i, h0, by rw [hcold, hro]⟩
                  rw [h1] at h2
                  injection h2 with h2
                  exact absurd h2 hs
            · rw [if_neg hro]
              by_cases hs : s = sid
              · rw [if_pos hs]
                constructor
                · intro h
                  obtain ⟨i2, hi2, hc2⟩ := (hC.rtc_iff r s).mp h
                  rw [hs] at hi2
                  rw [h0] at hi2
                  injection hi2 with hi2
                  rw [← hi2, hcold] at hc2
                  injection hc2 with hc2
                  exact absurd hc2.symm hro
                · rintro ⟨i2, hi2, hc2⟩
                  injection hi2 with hi2
                  rw [← hi2, hnew_rtc] at hc2
                  injection hc2 with hc2
                  exact absurd hc2.symm hr
              · rw [if_neg hs]
                exact hC.rtc_iff r s
          | none =>
            show lookupA st.rtc_to_session r = some s ↔ _
            by_cases hs : s = sid
            · rw [if_pos hs]
              constructor
              · intro h
                obtain ⟨i2, hi2, hc2⟩ := (hC.rtc_iff r s).mp h
                rw [hs] at hi2
                rw [h0] at hi2
                injection hi2 with hi2
                exfalso
                rw [← hi2] at hc2
                have hne := hW.rtc_ne sid i r h0 hc2
                have hx : presentStr i.current_rtc_connection_id = some r := by
                  rw [hc2]
                  simp [presentStr, hne]
                rw [ho] at hx
                cases hx
              · rintro ⟨i2, hi2, hc2⟩
                injection hi2 with hi2
                rw [← hi2, hnew_rtc] at hc2
                injection hc2 with hc2
                exact absurd hc2.symm hr
            · rw [if_neg hs]
              exact hC.rtc_iff r s
    · constructor
      · intro s i2 h
        rw [regRtc_sessions_lookup st sid rid tid now i h0] at h
        by_cases hs : s = sid
        · rw [hs]
          exact hW.sid_ne sid i h0
        · rw [if_neg hs] at h
          exact hW.sid_ne s i2 h
      · intro s i2 w h hc
        rw [regRtc_sessions_lookup st sid rid tid now i h0] at h
        by_cases hs : s = sid
        · rw [if_pos hs] at h
          injection h with h
          rw [← h, hnew_ws] at hc
          exact hW.ws_ne sid i w h0 hc
        · rw [if_neg hs] at h
          exact hW.ws_ne s i2 w h hc
      · intro s i2 r h hc
        rw [regRtc_sessions_lookup st sid rid tid now i h0] at h
        by_cases hs : s = sid
        · rw [if_pos hs] at h
          injection h with h
          rw [← h, hnew_rtc] at hc
          injection hc with hc
          rw [← hc]
          exact hrid
        · rw [if_neg hs] at h
          exact hW.rtc_ne s i2 r h hc

theorem unregWs_preserves_inv (st : SessionManagerState) (wid : String)
    (hInv : RegistryInv st) : RegistryInv (unregisterWsConnection st wid).1 := by
  obtain ⟨hC, hW⟩ := hInv
  cases h0 : lookupA st.ws_to_session wid with
  | none =>
    rw [show (unregisterWsConnection st wid).1 = st by
      rw [unregWs_unknown st wid h0]]
    exact ⟨hC, hW⟩
  | some sid =>
    obtain ⟨i, hi, hcur⟩ := (hC.ws_iff wid sid).mp h0
    have hsid : sid ≠ "" := hW.sid_ne sid i hi
    rw [show (unregisterWsConnection st wid).1 =
        { sessions := insertA st.sessions sid
            { i with current_ws_connection_id := none },
          ws_to_session := eraseA st.ws_to_session wid,
          rtc_to_session := st.rtc_to_session } by
      rw [unregWs_bound st wid sid i h0 hsid hi hcur]]
    constructor
    · constructor
      · intro w s
        show lookupA (eraseA st.ws_to_session wid) w = some s ↔ _
        rw [lookupA_eraseA]
        have hsess : ∀ s2, lookupA (insertA st.sessions sid
            { i with current_ws_connection_id := none }) s2 =
            if s2 = sid then some { i with current_ws_connection_id := none }
            else lookupA st.sessions s2 := fun s2 => lookupA_insertA _ _ _ _
        rw [hsess]
        by_cases hw : w = wid
        · rw [if_pos hw]
          constructor
          · intro h; cases h
          · rintro ⟨i2, hi2, hc2⟩
            by_cases hs : s = sid
            · rw [if_pos hs] at hi2
              injection hi2 with hi2
              rw [← hi2] at hc2
              cases hc2
            · rw [if_neg hs] at hi2
              have h1 := (hC.ws_iff w s).mpr ⟨i2, hi2, hc2⟩
              rw [hw] at h1
              rw [h0] at h1
              injection h1 with h1
              exact absurd h1.symm hs
        · rw [if_neg hw]
          by_cases hs : s = sid
          · rw [if_pos hs]
            constructor
            · intro h
              obtain ⟨i2, hi2, hc2⟩ := (hC.ws_iff w s).mp h
              rw [hs] at hi2
              rw [hi] at hi2
              injection hi2 with hi2
              rw [← hi2, hcur] at hc2
              injection hc2 with hc2
              exact absurd hc2.symm hw
            · rintro ⟨i2, hi2, hc2⟩
              injection hi2 with hi2
              rw [← hi2] at hc2
              cases hc2
          · rw [if_neg hs]
            exact hC.ws_iff w s
      · intro r s
        show lookupA st.rtc_to_session r = some s ↔ _
        have hsess : ∀ s2, lookupA (insertA st.sessions sid
            { i with current_ws_connection_id := none }) s2 =
            if s2 = sid then some { i with current_ws_connection_id := none }
            else lookupA st.sessions s2 := fun s2 => lookupA_insertA _ _ _ _
        rw [hsess]
        by_cases hs : s = sid
        · rw [if_pos hs]
          rw [hC.rtc_iff r s]
          constructor
          · rintro ⟨i2, hi2, hc2⟩
            rw [hs] at hi2
            rw [hi] at hi2
            injection hi2 with hi2
            refine ⟨{ i with current_ws_connection_id := none }, rfl, ?_⟩
            show i.current_rtc_connection_id = some r
            rw [hi2]
            exact hc2
          · rintro ⟨i2, hi2, hc2⟩
            injection hi2 with hi2
            rw [← hi2] at hc2
            exact ⟨i, by rw [hs]; exact hi, hc2⟩
        · rw [if_neg hs]
          exact hC.rtc_iff r s
    · constructor
      · intro s i2 h
        show s ≠ ""
        rw [show lookupA (insertA st.sessions sid
            { i with current_ws_connection_id := none }) s =
            if s = sid then some { i with current_ws_connection_id := none }
            else lookupA st.sessions s from lookupA_insertA _ _ _ _] at h
        by_cases hs : s = sid
        · rw [hs]; exact hsid
        · rw [if_neg hs] at h
          exact hW.sid_ne s i2 h
      · intro s i2 w h hc
        rw [show lookupA (insertA st.sessions sid
            { i with current_ws_connection_id := none }) s =
            if s = sid then some { i with current_ws_connection_id := none }
            else lookupA st.sessions s from lookupA_insertA _ _ _ _] at h
        by_cases hs : s = sid
        · rw [if_pos hs] at h
          injection h with h
          rw [← h] at hc
          cases hc
        · rw [if_neg hs] at h
          exact hW.ws_ne s i2 w h hc
      · intro s i2 r h hc
        rw [show lookupA (insertA st.sessions sid
            { i with current_ws_connection_id := none }) s =
            if s = sid then some { i with current_ws_connection_id := none }
            else lookupA st.sessions s from lookupA_insertA _ _ _ _] at h
        by_cases hs : s = sid
        · rw [if_pos hs] at h
          injection h with h
          rw [← h] at hc
          exact hW.rtc_ne sid i r hi hc
        · rw [if_neg hs] at h
          exact hW.rtc_ne s i2 r h hc

theorem unregRtc_preserves_inv (st : SessionManagerState) (rid : String)
    (hInv : RegistryInv st) : RegistryInv (unregisterRtcConnection st rid).1 := by
  obtain ⟨hC, hW⟩ := hInv
  cases h0 : lookupA st.rtc_to_session rid with
  | none =>
    rw [show (unregisterRtcConnection st rid).1 = st by
      rw [unregRtc_unknown st rid h0]]
    exact ⟨hC, hW⟩
  | some sid =>
    obtain ⟨i, hi, hcur⟩ := (hC.rtc_iff rid sid).mp h0
    have hsid : sid ≠ "" := hW.sid_ne sid i hi
    rw [show (unregisterRtcConnection st rid).1 =
        { sessions := insertA st.sessions sid
            { i with current_rtc_connection_id := none },
          ws_to_session := st.ws_to_session,
          rtc_to_session := eraseA st.rtc_to_session rid } by
      rw [unregRtc_bound st rid sid i h0 hsid hi hcur]]
    have hsess : ∀ s2, lookupA (insertA st.sessions sid
        { i with current_rtc_connection_id := none }) s2 =
        if s2 = sid then some { i with current_rtc_connection_id := none }
        else lookupA st.sessions s2 := fun s2 => lookupA_insertA _ _ _ _
    constructor
    · constructor
      · intro w s
        show lookupA st.ws_to_session w = some s ↔ _
        rw [hsess]
        by_cases hs : s = sid
        · rw [if_pos hs]
          rw [hC.ws_iff w s]
          constructor
          · rintro ⟨i2, hi2, hc2⟩
            rw [hs] at hi2
            rw [hi] at hi2
            injection hi2 with hi2
            refine ⟨{ i with current_rtc_connection_id := none }, rfl, ?_⟩
            show i.current_ws_connection_id = some w
            rw [hi2]
            exact hc2
          · rintro ⟨i2, hi2, hc2⟩
            injection hi2 with hi2
            rw [← hi2] at hc2
            exact ⟨i, by rw [hs]; exact hi, hc2⟩
        · rw [if_neg hs]
          exact hC.ws_iff w s
      · intro r s
        show lookupA (eraseA st.rtc_to_session rid) r = some s ↔ _
        rw [lookupA_eraseA, hsess]
        by_cases hr : r = rid
        · rw [if_pos hr]
          constructor
          · intro h; cases h
          · rintro ⟨i2, hi2, hc2⟩
            by_cases hs : s = sid
            · rw [if_pos hs] at hi2
              injection hi2 with hi2
              rw [← hi2] at hc2
              cases hc2
            · rw [if_neg hs] at hi2
              have h1 := (hC.rtc_iff r s).mpr ⟨i2, hi2, hc2⟩
              rw [hr] at h1
              rw [h0] at h1
              injection h1 with h1
              exact absurd h1.symm hs
        · rw [if_neg hr]
          by_cases hs : s = sid
          · rw [if_pos hs]
            constructor
            · intro h
              obtain ⟨i2, hi2, hc2⟩ := (hC.rtc_iff r s).mp h
              rw [hs] at hi2
              rw [hi] at hi2
              injection hi2 with hi2
              rw [← hi2, hcur] at hc2
              injection hc2 with hc2
              exact absurd hc2.symm hr
            · rintro ⟨i2, hi2, hc2⟩
              injection hi2 with hi2
              rw [← hi2] at hc2
              cases hc2
          · rw [if_neg hs]
            exact hC.rtc_iff r s
    · constructor
      · intro s i2 h
        rw [hsess] at h
        by_cases hs : s = sid
        · rw [hs]; exact hsid
        · rw [if_neg hs] at h
          exact hW.sid_ne s i2 h
      · intro s i2 w h hc
        rw [hsess] at h
        by_cases hs : s = sid
        · rw [if_pos hs] at h
          injection h with h
          rw [← h] at hc
          exact hW.ws_ne sid i w hi hc
        · rw [if_neg hs] at h
          exact hW.ws_ne s i2 w h hc
      · intro s i2 r h hc
        rw [hsess] at h
        by_cases hs : s = sid
        · rw [if_pos hs] at h
          injection h with h
          rw [← h] at hc
          cases hc
        · rw [if_neg hs] at h
          exact hW.rtc_ne s i2 r h hc

theorem cleanupOne_preserves_inv (st : SessionManagerState) (sid : String)
    (hInv : RegistryInv st) : RegistryInv (cleanupOneSession st sid).1 := by
  obtain ⟨hC, hW⟩ := hInv
  cases h0 : lookupA st.sessions sid with
  | none =>
    rw [show (cleanupOneSession st sid).1 = st by
      rw [cleanupOne_unknown st sid h0]]
    exact ⟨hC, hW⟩
  | some i =>
    rw [show (cleanupOneSession st sid).1 =
        { sessions := eraseA st.sessions sid,
          ws_to_session :=
            match presentStr i.current_ws_connection_id with
            | some w => eraseA st.ws_to_session w
            | none => st.ws_to_session,
          rtc_to_session :=
            match presentStr i.current_rtc_connection_id with
            | some r => eraseA st.rtc_to_session r
            | none => st.rtc_to_session } by
      rw [cleanupOne_known st sid i h0]]
    have hsess : ∀ s2, lookupA (eraseA st.sessions sid) s2 =
        if s2 = sid then none else lookupA st.sessions s2 :=
      fun s2 => lookupA_eraseA _ _ _
    constructor
    · constructor
      · intro w s
        show lookupA (match presentStr i.current_ws_connection_id with
          | some w => eraseA st.ws_to_session w
          | none => st.ws_to_session) w = some s ↔ _
        rw [hsess]
        cases hpw : presentStr i.current_ws_connection_id with
        | some w0 =>
          show lookupA (eraseA st.ws_to_session w0) w = some s ↔ _
          rw [lookupA_eraseA]
          obtain ⟨hcw, _⟩ := (presentStr_eq_some _ w0).mp hpw
          by_cases hw : w = w0
          · rw [if_pos hw]
            constructor
            · intro h; cases h
            · rintro ⟨i2, hi2, hc2⟩
              by_cases hs : s = sid
              · rw [if_pos hs] at hi2; cases hi2
              · rw [if_neg hs] at hi2
                have h1 := (hC.ws_iff w s).mpr ⟨i2, hi2, hc2⟩
                have h2 := (hC.ws_iff w sid).mpr ⟨i, h0, by rw [hcw, hw]⟩
                rw [h1] at h2
                injection h2 with h2
                exact absurd h2 hs
          · rw [if_neg hw]
            by_cases hs : s = sid
            · rw [if_pos hs]
              constructor
              · intro h
                obtain ⟨i2, hi2, hc2⟩ := (hC.ws_iff w s).mp h
                rw [hs] at hi2
                rw [h0] at hi2
                injection hi2 with hi2
                rw [← hi2, hcw] at hc2
                injection hc2 with hc2
                exact absurd hc2.symm hw
              · rintro ⟨i2, hi2, hc2⟩
                cases hi2
            · rw [if_neg hs]
              exact hC.ws_iff w s
        | none =>
          show lookupA st.ws_to_session w = some s ↔ _
          by_cases hs : s = sid
          · rw [if_pos hs]
            constructor
            · intro h
              obtain ⟨i2, hi2, hc2⟩ := (hC.ws_iff w s).mp h
              rw [hs] at hi2
              rw [h0] at hi2
              injection hi2 with hi2
              rw [← hi2] at hc2
              have hne := hW.ws_ne sid i w h0 hc2
              have hx : presentStr i.current_ws_connection_id = some w := by
                rw [hc2]
                simp [presentStr, hne]
              rw [hpw] at hx
              cases hx
            · rintro ⟨i2, hi2, hc2⟩
              cases hi2
          · rw [if_neg hs]
            exact hC.ws_iff w s
      · intro r s
        show lookupA (match presentStr i.current_rtc_connection_id with
          | some r => eraseA st.rtc_to_session r
          | none => st.rtc_to_session) r = some s ↔ _
        rw [hsess]
        cases hpr : presentStr i.current_rtc_connection_id with
        | some r0 =>
          show lookupA (eraseA st.rtc_to_session r0) r = some s ↔ _
          rw [lookupA_eraseA]
          obtain ⟨hcr, _⟩ := (presentStr_eq_some _ r0).mp hpr
          by_cases hr : r = r0
          · rw [if_pos hr]
            constructor
            · intro h; cases h
            · rintro ⟨i2, hi2, hc2⟩
              by_cases hs : s = sid
              · rw [if_pos hs] at hi2; cases hi2
              · rw [if_neg hs] at hi2
                have h1 := (hC.rtc_iff r s).mpr ⟨i2, hi2, hc2⟩
                have h2 := (hC.rtc_iff r sid).mpr ⟨i, h0, by rw [hcr, hr]⟩
                rw [h1] at h2
                injection h2 with h2
                exact absurd h2 hs
          · rw [if_neg hr]
            by_cases hs : s = sid
            · rw [if_pos hs]
              constructor
              · intro h
                obtain ⟨i2, hi2, hc2⟩ := (hC.rtc_iff r s).mp h
                rw [hs] at hi2
                rw [h0] at hi2
                injection hi2 with hi2
                rw [← hi2, hcr] at hc2
                injection hc2 with hc2
                exact absurd hc2.symm hr
              · rintro ⟨i2, hi2, hc2⟩
                cases hi2
            · rw [if_neg hs]
              exact hC.rtc_iff r s
        | none =>
          show lookupA st.rtc_to_session r = some s ↔ _
          by_cases hs : s = sid
          · rw [if_pos hs]
            constructor
            · intro h
              obtain ⟨i2, hi2, hc2⟩ := (hC.rtc_iff r s).mp h
              rw [hs] at hi2
              rw [h0] at hi2
              injection hi2 with hi2
              rw [← hi2] at hc2
              have hne := hW.rtc_ne sid i r h0 hc2
              have hx : presentStr i.current_rtc_connection_id = some r := by
                rw [hc2]
                simp [presentStr, hne]
              rw [hpr] at hx
              cases hx
            · rintro ⟨i2, hi2, hc2⟩
              cases hi2
          · rw [if_neg hs]
            exact hC.rtc_iff r s
    · constructor
      · intro s i2 h
        rw [hsess] at h
        by_cases hs : s = sid
        · rw [if_pos hs] at h; cases h
        · rw [if_neg hs] at h
          exact hW.sid_ne s i2 h
      · intro s i2 w h hc
        rw [hsess] at h
        by_cases hs : s = sid
        · rw [if_pos hs] at h; cases h
        · rw [if_neg hs] at h
          exact hW.ws_ne s i2 w h hc
      · intro s i2 r h hc
        rw [hsess] at h
        by_cases hs : s = sid
        · rw [if_pos hs] at h; cases h
        · rw [if_neg hs] at h
          exact hW.rtc_ne s i2 r h hc

theorem cleanupStale_preserves_inv (st : SessionManagerState) (now maxAge : Nat)
    (hInv : RegistryInv st) :
    RegistryInv (cleanupStaleSessions st now maxAge).1 := by
  unfold cleanupStaleSessions
  generalize ((st.sessions.filter (fun p => p.2.last_activity + maxAge < now)).map (·.1)) = l
  suffices h : ∀ (l : List String) (acc : SessionManagerState × Nat),
      RegistryInv acc.1 →
      RegistryInv (l.foldl
        (fun acc sid =>
          let r := cleanupOneSession acc.1 sid
          (r.1, if r.2 then acc.2 + 1 else acc.2)) acc).1 by
    exact h l (st, 0) hInv
  intro l
  induction l with
  | nil => intro acc h; exact h
  | cons sid rest ih =>
    intro acc h
    exact ih _ (cleanupOne_preserves_inv acc.1 sid h)

/-- Operations of the session registry. -/
inductive SessionOp where
  | regWs (session_id ws_connection_id thread_id : String) (now : Nat)
  | regRtc (session_id rtc_connection_id thread_id : String) (now : Nat)
  | unregWs (ws_connection_id : String)
  | unregRtc (rtc_connection_id : String)
  | cleanupStale (now maxAge : Nat)
deriving Repr, DecidableEq

/-- State reached by one registry operation (return values dropped). -/
def applySessionOp (st : SessionManagerState) : SessionOp → SessionManagerState
  | .regWs sid wid tid now => (registerWebsocketConnection st sid wid tid now).1
  | .regRtc sid rid tid now => (registerRtcConnection st sid rid tid now).1
  | .unregWs wid => (unregisterWsConnection st wid).1
  | .unregRtc rid => (unregisterRtcConnection st rid).1
  | .cleanupStale now maxAge => (cleanupStaleSessions st now maxAge).1

/-- State reached by a sequence of registry operations from the empty
registry. -/
def runSessionOps (ops : List SessionOp) : SessionManagerState :=
  ops.foldl applySessionOp {}

/-- Freshness discipline of one operation: registrations use non-empty ids
and never register a channel id currently bound to a different session
(server-assigned uuid channel ids satisfy this). -/
def SessionOpOK (st : SessionManagerState) : SessionOp → Prop
  | .regWs sid wid _ _ => sid ≠ "" ∧ wid ≠ "" ∧
      (lookupA st.ws_to_session wid = none ∨
        lookupA st.ws_to_session wid = some sid)
  | .regRtc sid rid _ _ => rid ≠ "" ∧
      (lookupA st.rtc_to_session rid = none ∨
        lookupA st.rtc_to_session rid = some sid)
  | .unregWs _ => True
  | .unregRtc _ => True
  | .cleanupStale _ _ => True

/-- Freshness discipline along a whole operation sequence. -/
def SessionOpsOK : SessionManagerState → List SessionOp → Prop
  | _, [] => True
  | st, op :: rest => SessionOpOK st op ∧ SessionOpsOK (applySessionOp st op) rest

theorem applySessionOp_preserves_inv (st : SessionManagerState) (op : SessionOp)
    (hInv : RegistryInv st) (hok : SessionOpOK st op) :
    RegistryInv (applySessionOp st op) := by
  cases op with
  | regWs sid wid tid now =>
    obtain ⟨hsid, hwid, hfresh⟩ := hok
    refine regWs_preserves_inv st sid wid tid now hInv hsid hwid ?_
    intro s h
    cases hfresh with
    | inl h2 => rw [h2] at h; cases h
    | inr h2 =>
      rw [h2] at h
      injection h with h
      exact h.symm
  | regRtc sid rid tid now =>
    obtain ⟨hrid, hfresh⟩ := hok
    refine regRtc_preserves_inv st sid rid tid now hInv hrid ?_
    intro s h
    cases hfresh with
    | inl h2 => rw [h2] at h; cases h
    | inr h2 =>
      rw [h2] at h
      injection h with h
      exact h.symm
  | unregWs wid => exact unregWs_preserves_inv st wid hInv
  | unregRtc rid => exact unregRtc_preserves_inv st rid hInv
  | cleanupStale now maxAge => exact cleanupStale_preserves_inv st now maxAge hInv

theorem runOps_preserves_inv (ops : List SessionOp) :
    ∀ st, RegistryInv st → SessionOpsOK st ops →
      RegistryInv (ops.foldl applySessionOp st) := by
  induction ops with
  | nil => intro st h _; exact h
  | cons op rest ih =>
    intro st h hok
    exact ih _ (applySessionOp_preserves_inv st op h hok.1) hok.2

/-- C10 (counterexample): registering the same control-channel id for two
different sessions (which the claim's unrestricted quantification over
operation sequences allows) leaves session `s1` still pointing at channel
`w` while the reverse index maps `w` to `s2`, so the iff of the claimed
invariant fails. -/
theorem session_registry_consistency_cex :
    ¬ RegistryConsistent (runSessionOps
      [SessionOp.regWs "s1" "w" "t" 0, SessionOp.regWs "s2" "w" "t" 0]) := by
  intro hC
  have h1 : (lookupA (runSessionOps
      [SessionOp.regWs "s1" "w" "t" 0, SessionOp.regWs "s2" "w" "t" 0]).sessions
        "s1").map (fun i => i.current_ws_connection_id) = some (some "w") := by
    decide
  have h2 : lookupA (runSessionOps
      [SessionOp.regWs "s1" "w" "t" 0, SessionOp.regWs "s2" "w" "t" 0]).ws_to_session
        "w" = some "s2" := by
    decide
  cases hl : lookupA (runSessionOps
      [SessionOp.regWs "s1" "w" "t" 0, SessionOp.regWs "s2" "w" "t" 0]).sessions
        "s1" with
  | none => rw [hl] at h1; cases h1
  | some i =>
    rw [hl] at h1
    injection h1 with h1
    have h3 := (hC.ws_iff "w" "s1").mpr ⟨i, hl, h1⟩
    rw [h2] at h3
    injection h3 with h3
    exact absurd h3 (by decide)

/-- C10 (amended): under the freshness discipline (non-empty ids, and each
registered channel id not currently bound to a different session — true of
the server-assigned uuid ids), every sequence of register, unregister and
stale-cleanup operations keeps the forward and reverse indexes mutually
consistent: a reverse index maps channel id `w` to session `s` iff `s`'s
current binding of that kind is `w`; moreover unregistering a channel id
that has already been evicted by a rebind (hence absent from the reverse
index) returns failure and leaves the registry untouched. -/
theorem session_registry_consistency (ops : List SessionOp)
    (hok : SessionOpsOK {} ops) :
    RegistryConsistent (runSessionOps ops) ∧
    (∀ st wid, lookupA st.ws_to_session wid = none →
      unregisterWsConnection st wid = (st, false)) ∧
    (∀ st rid, lookupA st.rtc_to_session rid = none →
      unregisterRtcConnection st rid = (st, false)) := by
  refine ⟨?_, unregWs_unknown, unregRtc_unknown⟩
  exact (runOps_preserves_inv ops {} registryInv_empty hok).1

/-- C10 witness: a concrete fresh-id operation sequence satisfying the
hypothesis, on which the amended theorem yields a consistent registry. -/
theorem session_registry_consistency_witness :
    SessionOpsOK {} [SessionOp.regWs "s1" "w1" "t" 0,
        SessionOp.regRtc "s1" "r1" "t" 1, SessionOp.unregWs "w1"] ∧
    RegistryConsistent (runSessionOps [SessionOp.regWs "s1" "w1" "t" 0,
        SessionOp.regRtc "s1" "r1" "t" 1, SessionOp.unregWs "w1"]) := by
  have hok : SessionOpsOK {} [SessionOp.regWs "s1" "w1" "t" 0,
      SessionOp.regRtc "s1" "r1" "t" 1, SessionOp.unregWs "w1"] :=
    ⟨⟨by decide, by decide, Or.inl (by decide)⟩,
      ⟨by decide, Or.inl (by decide)⟩, trivial, trivial⟩
  exact ⟨hok, (session_registry_consistency _ hok).1⟩

/-- Channel-binding view of a session record: the pair of its current
control and media channel ids, the state the spec calls the binding
state. -/
def bindingView (i : SessionInfo) : Option String × Option String :=
  (i.current_ws_connection_id, i.current_rtc_connection_id)

/-- C4: with a coherent starting registry (the session's current control
id `w0` is non-empty, the reverse index maps `w0` — and only `w0` — to the
session), re-binding the same control id to the same session leaves the
binding state unchanged (same reverse indexes, same channel bindings of
every session), while binding any new control id `wid ≠ w0` evicts the
previous binding, removes `w0`'s reverse-index entry, and leaves the
reverse index containing exactly `wid` for that session. -/
theorem control_bind_idempotent_evicting (st : SessionManagerState)
    (sid w0 tid : String) (now : Nat) (i : SessionInfo)
    (hi : lookupA st.sessions sid = some i)
    (hcur : i.current_ws_connection_id = some w0)
    (hw0 : w0 ≠ "")
    (hidx : lookupA st.ws_to_session w0 = some sid)
    (huniq : ∀ w, lookupA st.ws_to_session w = some sid → w = w0) :
    ((∀ w, lookupA (registerWebsocketConnection st sid w0 tid now).1.ws_to_session w
        = lookupA st.ws_to_session w) ∧
     (∀ s, (lookupA (registerWebsocketConnection st sid w0 tid now).1.sessions s).map
          bindingView
        = (lookupA st.sessions s).map bindingView) ∧
     (registerWebsocketConnection st sid w0 tid now).1.rtc_to_session
        = st.rtc_to_session) ∧
    (∀ wid, wid ≠ w0 →
      (∃ j, lookupA (registerWebsocketConnection st sid wid tid now).1.sessions sid
          = some j ∧ j.current_ws_connection_id = some wid) ∧
      lookupA (registerWebsocketConnection st sid wid tid now).1.ws_to_session w0
        = none ∧
      (∀ w, lookupA (registerWebsocketConnection st sid wid tid now).1.ws_to_session w
          = some sid ↔ w = wid)) := by
  have ho : sessionOldWs st sid = some w0 := by
    unfold sessionOldWs
    rw [hi]
    show presentStr i.current_ws_connection_id = some w0
    rw [hcur]
    simp [presentStr, hw0]
  have hbase : regWsBase st sid now = i := by
    unfold regWsBase
    rw [hi]
  constructor
  · refine ⟨?_, ?_, regWs_rtc_eq st sid w0 tid now⟩
    · intro w
      rw [regWs_ws_lookup_old st sid w0 tid now w w0 ho]
      by_cases hw : w = w0
      · rw [if_pos hw, hw, hidx]
      · rw [if_neg hw, if_neg hw]
    · intro s
      rw [regWs_sessions_lookup]
      by_cases hs : s = sid
      · have hbv : bindingView (regWsNewInfo st sid w0 tid now) = bindingView i := by
          unfold bindingView regWsNewInfo
          rw [hbase, hcur]
        rw [if_pos hs, hs, hi]
        show some (bindingView (regWsNewInfo st sid w0 tid now))
          = some (bindingView i)
        rw [hbv]
      · rw [if_neg hs]
  · intro wid hwid
    refine ⟨⟨regWsNewInfo st sid wid tid now, ?_, rfl⟩, ?_, ?_⟩
    · rw [regWs_sessions_lookup, if_pos rfl]
    · rw [regWs_ws_lookup_old st sid wid tid now w0 w0 ho,
        if_neg (fun h : w0 = wid => hwid h.symm), if_pos rfl]
    · intro w
      rw [regWs_ws_lookup_old st sid wid tid now w w0 ho]
      by_cases hw : w = wid
      · rw [if_pos hw]
        simp [hw]
      · rw [if_neg hw]
        by_cases hw0b : w = w0
        · rw [if_pos hw0b]
          constructor
          · intro h; cases h
          · intro h; exact absurd h hw
        · rw [if_neg hw0b]
          constructor
          · intro h
            exact absurd (huniq w h) hw0b
          · intro h; exact absurd h hw

/-- Registry holding one session `s` currently bound to control channel
`w0`, used to witness the C4 theorem. -/
def c4State : SessionManagerState :=
  (registerWebsocketConnection {} "s" "w0" "t" 0).1

/-- Session record of `c4State`'s only session. -/
def c4Info : SessionInfo :=
  { session_id := "s", current_thread_id := some "t",
    current_ws_connection_id := some "w0", created_at := 0, last_activity := 0,
    thread_history := ["t"] }

theorem lookupA_singleton_ws (w : String)
    (h : lookupA c4State.ws_to_session w = some "s") : w = "w0" := by
  have he : c4State.ws_to_session = [("w0", "s")] := by decide
  rw [he] at h
  unfold lookupA at h
  by_cases hk : ("w0" : String) = w
  · exact hk.symm
  · rw [if_neg hk] at h
    cases h

/-- C4 witness: the hypotheses hold of the one-session registry `c4State`,
and re-binding control id `w0` there leaves its reverse index pointwise
unchanged. -/
theorem control_bind_idempotent_evicting_witness :
    lookupA c4State.sessions "s" = some c4Info ∧
    c4Info.current_ws_connection_id = some "w0" ∧
    lookupA c4State.ws_to_session "w0" = some "s" ∧
    (∀ w, lookupA (registerWebsocketConnection c4State "s" "w0" "t" 1).1.ws_to_session w
        = lookupA c4State.ws_to_session w) :=
  ⟨by decide, by decide, by decide,
    ((control_bind_idempotent_evicting c4State "s" "w0" "t" 1 c4Info
        (by decide) (by decide) (by decide) (by decide)
        (fun w h => lookupA_singleton_ws w h)).1).1⟩

/-- Registry holding one session `s` whose control channel has been
unregistered again: the session exists but has no control binding. -/
def c5State : SessionManagerState :=
  (unregisterWsConnection (registerWebsocketConnection {} "s" "w" "t" 0).1 "w").1

/-- C5 (counterexample): in `c5State` the session `s` exists with no
control binding, yet the media bind `register_rtc_connection` succeeds —
refuting the claim that a media bind succeeds only when the session
already has a control binding. -/
theorem media_bind_without_control_binding :
    (lookupA c5State.sessions "s").isSome = true ∧
    (lookupA c5State.sessions "s").bind
      (fun i => i.current_ws_connection_id) = none ∧
    (registerRtcConnection c5State "s" "r" "t" 1).2 = true := by
  decide

/-- C5 (amended): a media bind succeeds iff the session id is known to the
registry (sessions are only ever created by control binds): on an unknown
session it returns the session-unknown failure and leaves the registry
untouched (no session is created), and on a known session it always
returns success — the unknown session is the only failure mode.  A session
may be known while its control binding has been unregistered, and the
media bind still succeeds then. -/
theorem media_bind_requires_known_session (st : SessionManagerState)
    (sid rid tid : String) (now : Nat) :
    (lookupA st.sessions sid = none →
      registerRtcConnection st sid rid tid now = (st, false)) ∧
    ((lookupA st.sessions sid).isSome = true →
      (registerRtcConnection st sid rid tid now).2 = true) := by
  constructor
  · intro h
    exact regRtc_unknown st sid rid tid now h
  · intro h
    cases h0 : lookupA st.sessions sid with
    | none => rw [h0] at h; cases h
    | some i => exact (regRtc_state_eq st sid rid tid now i h0).2

/-- C5 witness: on the empty registry the media bind is rejected without
creating a session, and on the registry holding session `s` it succeeds. -/
theorem media_bind_requires_known_session_witness :
    registerRtcConnection {} "s" "r" "t" 0 = ({}, false) ∧
    (lookupA c5State.sessions "s").isSome = true ∧
    (registerRtcConnection c5State "s" "r" "t" 1).2 = true :=
  ⟨(media_bind_requires_known_session {} "s" "r" "t" 0).1 (by decide),
    by decide,
    (media_bind_requires_known_session c5State "s" "r" "t" 1).2 (by decide)⟩

/-! ## Enhancement decider

Embedding of `EnhancedMCPClient.make_enhancement_decision_streaming`
(`src/mcp/enhanced_mcp_client.py`) and
`PerConnectionProcessor._make_enhancement_decision`
(`app/per_connection_processor.py`).  The LLM interaction inside the
client's `try` body is abstracted into an outcome oracle; everything the
source does with that outcome is translated. -/

/-- Decision record of the decider.  The two Pydantic declarations in the
sources type `voiceOverText` as `str`, but the `schemas` module the
per-connection processor imports is absent from the sources and the
processor constructs the record with `voiceOverText=None`, so the field is
nullable here (matching the spec's decision record with nullable
voice-over). -/
structure EnhancementDecision where
  displayEnhancement : Bool
  displayEnhancedText : String
  voiceOverText : Option String
deriving Repr, DecidableEq

/-- Outcome of the LLM interaction inside the `try` body of
`make_enhancement_decision_streaming`: the first call requested a tool and
the follow-up streaming call did (or did not) parse into a decision, or no
tool was requested and the streaming call did (or did not — even after the
raw-JSON retry — ) parse into a decision, or some exception (including the
30 s timeout) was raised inside the body. -/
inductive DeciderBodyOutcome where
  | toolCallDecided (d : EnhancementDecision) (toolName : String)
  | toolCallNotDecision (toolResult toolName : String)
  | decided (d : EnhancementDecision)
  | notDecision
  | raised
deriving Repr, DecidableEq

/-- Voice-over the tool path substitutes for a blank one. -/
def toolVoiceOver (toolName : String) : String :=
  "I used the " ++ toolName ++ " tool to help answer your question."

/-- Translation of `make_enhancement_decision_streaming`: an uninitialized
client raises `RuntimeError` before the `try` (the `.error` case — the only
exception that can escape the call); inside the `try`, a tool-call path
forces `displayEnhancement` and backfills a blank voice-over, a direct
decision is returned as is, and a non-decision result or any raised
exception (timeout included) yields the fallback
`{enhance: false, display: utterance, voice: utterance}`. -/
def makeEnhancementDecisionStreaming (assistant_response : String)
    (initialized : Bool) (outcome : DeciderBodyOutcome) :
    Except Unit EnhancementDecision :=
  if !initialized then Except.error ()
  else
    Except.ok
      (match outcome with
        | .toolCallDecided d toolName =>
          { d with
            displayEnhancement := true,
            voiceOverText :=
              if (d.voiceOverText.getD "").trim = "" then
                some (toolVoiceOver toolName)
              else d.voiceOverText }
        | .toolCallNotDecision toolResult toolName =>
          { displayEnhancement := true,
            displayEnhancedText := "Tool Result: " ++ toolResult,
            voiceOverText := some (toolVoiceOver toolName) }
        | .decided d => d
        | .notDecision =>
          { displayEnhancement := false,
            displayEnhancedText := assistant_response,
            voiceOverText := some assistant_response }
        | .raised =>
          { displayEnhancement := false,
            displayEnhancedText := assistant_response,
            voiceOverText := some assistant_response })

/-- Metadata source tag that `_process_per_connection_chat`
(`app/routes/per_connection_chat.py`) attaches to the assistant-turn
records of the per-connection text-chat path. -/
def perConnectionChatSource : String := "per_connection_chat"

/-- Translation of `PerConnectionProcessor._make_enhancement_decision`,
returning the decision together with whether the decider
(`make_enhancement_decision_streaming`) was invoked: a record whose source
is the literal `"text_chat"` bypasses the decider with
`{enhance: true, display: utterance, voice: None}`; with no MCP client the
decision is `{enhance: false, display: utterance, voice: ""}` without
invoking the decider; otherwise the decider is invoked and any exception
escaping it is caught into `{enhance: false, display: utterance,
voice: ""}`. -/
def processorMakeEnhancementDecision (assistant_response : String)
    (source : Option String) (mcpPresent initialized : Bool)
    (outcome : DeciderBodyOutcome) : EnhancementDecision × Bool :=
  if source = some "text_chat" then
    ({ displayEnhancement := true, displayEnhancedText := assistant_response,
       voiceOverText := none }, false)
  else if !mcpPresent then
    ({ displayEnhancement := false, displayEnhancedText := assistant_response,
       voiceOverText := some "" }, false)
  else
    match makeEnhancementDecisionStreaming assistant_response initialized outcome with
    | Except.ok d => (d, true)
    | Except.error _ =>
      ({ displayEnhancement := false, displayEnhancedText := assistant_response,
         voiceOverText := some "" }, true)

/-- C6 (counterexample): when an exception escapes the decision call (here
the `RuntimeError` of an uninitialized client), the worker's decision has
an empty voice-over, not the utterance, refuting the claim that all three
failure cases yield `{enhance: false, display: utterance, voice:
utterance}`. -/
theorem decider_fallback_cex :
    (processorMakeEnhancementDecision "hello" (some "voice-agent") true false
        DeciderBodyOutcome.raised).1
      = { displayEnhancement := false, displayEnhancedText := "hello",
          voiceOverText := some "" } ∧
    ¬ (processorMakeEnhancementDecision "hello" (some "voice-agent") true false
        DeciderBodyOutcome.raised).1.voiceOverText = some "hello" := by
  decide

/-- C6 (amended): for a non-bypassed record with an MCP client, structured
parsing failing (even after the raw-JSON retry) or the hard timeout or any
exception raised inside the decision call yields exactly
`{enhance: false, display: utterance, voice: utterance}`; an exception
escaping the decision call itself (uninitialized client) instead yields
`{enhance: false, display: utterance, voice: ""}`. -/
theorem decider_fallback (resp : String) (source : Option String)
    (outcome : DeciderBodyOutcome) :
    (source ≠ some "text_chat" →
      (outcome = DeciderBodyOutcome.notDecision ∨
        outcome = DeciderBodyOutcome.raised) →
      processorMakeEnhancementDecision resp source true true outcome
        = ({ displayEnhancement := false, displayEnhancedText := resp,
             voiceOverText := some resp }, true)) ∧
    (source ≠ some "text_chat" →
      processorMakeEnhancementDecision resp source true false outcome
        = ({ displayEnhancement := false, displayEnhancedText := resp,
             voiceOverText := some "" }, true)) := by
  constructor
  · intro hsrc hout
    unfold processorMakeEnhancementDecision
    rw [if_neg hsrc]
    cases hout with
    | inl h => rw [h]; rfl
    | inr h => rw [h]; rfl
  · intro hsrc
    unfold processorMakeEnhancementDecision
    rw [if_neg hsrc]
    rfl

/-- C6 witness: a concrete voice record whose decider call times out (the
`raised` outcome) produces the in-decider fallback, and one whose client
is uninitialized produces the empty-voice fallback. -/
theorem decider_fallback_witness :
    (some "voice-agent" : Option String) ≠ some "text_chat" ∧
    processorMakeEnhancementDecision "hi" (some "voice-agent") true true
        DeciderBodyOutcome.raised
      = ({ displayEnhancement := false, displayEnhancedText := "hi",
           voiceOverText := some "hi" }, true) ∧
    processorMakeEnhancementDecision "hi" (some "voice-agent") true false
        DeciderBodyOutcome.raised
      = ({ displayEnhancement := false, displayEnhancedText := "hi",
           voiceOverText := some "" }, true) :=
  ⟨by decide,
    (decider_fallback "hi" (some "voice-agent") DeciderBodyOutcome.raised).1
      (by decide) (Or.inr rfl),
    (decider_fallback "hi" (some "voice-agent") DeciderBodyOutcome.raised).2
      (by decide)⟩

/-- C8 (counterexample): an assistant-turn record enqueued by the
per-connection text-chat route carries the source tag
`"per_connection_chat"`, which the worker's bypass test
(`source == "text_chat"`) does not match: the decider is invoked (second
component `true`) and the decision is whatever the decider returns, not
`{enhance: true, display: utterance, voice: None}`. -/
theorem text_turn_bypass_cex :
    (processorMakeEnhancementDecision "hi" (some perConnectionChatSource) true true
        (DeciderBodyOutcome.decided
          { displayEnhancement := false, displayEnhancedText := "d",
            voiceOverText := some "v" })).2 = true ∧
    ¬ (processorMakeEnhancementDecision "hi" (some perConnectionChatSource) true true
        (DeciderBodyOutcome.decided
          { displayEnhancement := false, displayEnhancedText := "d",
            voiceOverText := some "v" })).1
      = { displayEnhancement := true, displayEnhancedText := "hi",
          voiceOverText := none } := by
  decide

/-- C8 (amended): the worker bypasses the decider exactly for records whose
metadata source is the literal `"text_chat"`: for those the decision is
`{enhance: true, display: utterance, voice: None}` and the decider is not
invoked; records of the per-connection text route (source
`"per_connection_chat"`) go through the decider instead. -/
theorem text_turn_bypass (resp : String) (mcpPresent initialized : Bool)
    (outcome : DeciderBodyOutcome) :
    processorMakeEnhancementDecision resp (some "text_chat") mcpPresent
        initialized outcome
      = ({ displayEnhancement := true, displayEnhancedText := resp,
           voiceOverText := none }, false) := by
  unfold processorMakeEnhancementDecision
  rw [if_pos rfl]

/-! ## Per-connection worker: enhanced streaming

Embedding of `PerConnectionProcessor._process_with_enhancement`,
`_stream_visualization_response` and `_send_simple_response`
(`app/per_connection_processor.py`).  The frame constructors
`create_enhancement_started`, `create_html_token` and the extended
`create_text_chat_response` / `create_voice_response` live in a version of
`app/queues.py` absent from the sources; their frame shapes are modelled
from the spec's frame table.  The provider stream is abstracted into the
chunk list it yields plus a flag telling whether it finished without
raising; content-payload formatting (HTML templates, component cards) is
abstracted to the raw content string, which no claim depends on. -/

/-- Frames the worker emits.  `c1_token`, `chat_done` follow
`app/queues.py`; `enhancement_started`, `html_token` and the response
frames with content type and framework are modelled from the spec's frame
table. -/
inductive OutFrame where
  | enhancementStarted (message : String)
  | c1Token (id content : String)
  | htmlToken (id content : String)
  | chatDone (id : String) (content : Option String)
  | textChatResponse (id content contentType : String)
      (framework : Option String) (threadId : Option String)
  | voiceResponse (id content contentType : String)
      (framework : Option String) (voiceText : Option String)
deriving Repr, DecidableEq

/-- Provider kinds the worker streams as `html_token`
(`_stream_visualization_response`). -/
def htmlProviderTypes : List String := ["openai", "anthropic", "google"]

/-- ASCII lowercasing of one character. -/
def lowerChar (c : Char) : Char :=
  if 65 ≤ c.toNat ∧ c.toNat ≤ 90 then Char.ofNat (c.toNat + 32) else c

/-- The Python `str.lower()` applied to provider kinds (all ASCII). -/
def lowerString (s : String) : String :=
  String.mk (s.data.map lowerChar)

/-- Modelled from the spec: `get_content_type_for_provider` of the absent
`app/queues.py` version — `html` for HTML-style providers, `c1`
otherwise, consistent with the in-source token choice of
`_stream_visualization_response`. -/
def getContentTypeForProvider (provider_type : String) : String :=
  if htmlProviderTypes.contains (lowerString provider_type) then "html" else "c1"

/-- Translation of `_send_simple_response`: one complete response frame,
`voice_response` for voice-agent records and `text_chat_response`
otherwise, typed and framed by the provider kind (framework preference
defaulting to `tailwind` for HTML, `c1` otherwise); the frame's fresh uuid
id is passed in as `freshId`. -/
def sendSimpleResponse (provider_type : String) (uiFramework : Option String)
    (content : String) (thread_id : Option String) (source : String)
    (freshId : String) : OutFrame :=
  let content_type := getContentTypeForProvider provider_type
  let framework :=
    if content_type = "html" then uiFramework.getD "tailwind" else "c1"
  if source = "voice-agent" then
    OutFrame.voiceResponse freshId content content_type (some framework) (some "")
  else
    OutFrame.textChatResponse freshId content content_type (some framework) thread_id

/-- Token frame `_stream_visualization_response` builds for one chunk. -/
def uiTokenFor (provider_type message_id content : String) : OutFrame :=
  if htmlProviderTypes.contains (lowerString provider_type) then
    OutFrame.htmlToken message_id content
  else
    OutFrame.c1Token message_id content

/-- Translation of `_stream_visualization_response`: one token frame per
chunk the provider stream yields; if the stream finishes, a `chat_done`
frame with the same message id; if it raises, the fallback simple response
instead (and no `chat_done`). -/
def streamVisualizationResponse (provider_type : String) (chunks : List String)
    (streamOk : Bool) (message_id : String) (thread_id : Option String)
    (uiFramework : Option String) (freshId : String) : List OutFrame :=
  let tokens := chunks.map (uiTokenFor provider_type message_id)
  if streamOk then
    tokens ++ [OutFrame.chatDone message_id none]
  else
    tokens ++ [sendSimpleResponse provider_type uiFramework
      "Failed to generate enhanced visualization" thread_id "text_chat" freshId]

/-- Translation of `_process_with_enhancement`: emit `enhancement_started`;
without a visualization provider fall back to a simple response of the
display text (and return); with one, stream the visualization.  The
message id is the record's, or a fresh uuid when the record has none. -/
def processWithEnhancement (provider : Option String) (uiFramework : Option String)
    (displayEnhancedText : String) (chunks : List String) (streamOk : Bool)
    (metaMessageId : Option String) (freshUuid : String)
    (thread_id : Option String) (source : String) (freshId2 : String) :
    List OutFrame :=
  let started := OutFrame.enhancementStarted "Generating enhanced display..."
  let message_id := metaMessageId.getD freshUuid
  match provider with
  | none =>
    [started, sendSimpleResponse "thesys" uiFramework displayEnhancedText
      thread_id source freshId2]
  | some provider_type =>
    started :: streamVisualizationResponse provider_type chunks streamOk
      message_id thread_id uiFramework freshId2

/-- Test for a UI token frame bearing a given message id. -/
def isUiTokenWithId (message_id : String) : OutFrame → Bool
  | OutFrame.c1Token i _ => i == message_id
  | OutFrame.htmlToken i _ => i == message_id
  | _ => false

/-- Frame pattern of the claim, written from its words: one
`enhancement_started`, then zero or more UI tokens bearing the message id,
then exactly one `chat_done` bearing the same id. -/
def enhancedFramePattern (message_id : String) : List OutFrame → Bool
  | OutFrame.enhancementStarted _ :: rest =>
    (match rest.getLast? with
      | some (OutFrame.chatDone i _) =>
        i == message_id && rest.dropLast.all (isUiTokenWithId message_id)
      | _ => false)
  | _ => false

theorem enhancedFramePattern_of_tokens (message_id : String) (msg : String)
    (tokens : List OutFrame) (c : Option String)
    (h : tokens.all (isUiTokenWithId message_id) = true) :
    enhancedFramePattern message_id
      (OutFrame.enhancementStarted msg ::
        (tokens ++ [OutFrame.chatDone message_id c])) = true := by
  show (match (tokens ++ [OutFrame.chatDone message_id c]).getLast? with
    | some (OutFrame.chatDone i _) =>
      i == message_id
        && (tokens ++ [OutFrame.chatDone message_id c]).dropLast.all
          (isUiTokenWithId message_id)
    | _ => false) = true
  rw [List.getLast?_concat, List.dropLast_concat, h]
  simp

/-- C2 (counterexample): with a visualization provider whose stream raises
after two chunks, the frames are `enhancement_started`, the two tokens, and
a fallback simple response — no `chat_done` at all — so the claimed
pattern (ending in exactly one `chat_done` for the message id) fails. -/
theorem enhanced_ordering_cex :
    enhancedFramePattern "M"
      (processWithEnhancement (some "thesys") none "text" ["a", "b"] false
        (some "M") "u" (some "T") "voice-agent" "f") = false ∧
    (processWithEnhancement (some "thesys") none "text" ["a", "b"] false
        (some "M") "u" (some "T") "voice-agent" "f").all
      (fun f => match f with
        | OutFrame.chatDone _ _ => false
        | _ => true) = true := by
  decide

/-- C2 (amended): for a record processed with enhance decided true, when
the connection has a visualization provider and the provider stream
completes without raising, the emitted frames are exactly one
`enhancement_started`, then one UI token per chunk — `html_token` for
HTML-style providers (`openai`, `anthropic`, `google`), `c1_token`
otherwise — each bearing the record's message id, then exactly one
`chat_done` bearing the same id; when the stream raises, the tokens
emitted so far are followed by a fallback simple response frame and no
`chat_done`. -/
theorem enhanced_ordering (provider_type : String) (uiFramework : Option String)
    (displayEnhancedText : String) (chunks : List String) (message_id : String)
    (freshUuid : String) (thread_id : Option String) (source : String)
    (freshId2 : String) :
    processWithEnhancement (some provider_type) uiFramework displayEnhancedText
        chunks true (some message_id) freshUuid thread_id source freshId2
      = OutFrame.enhancementStarted "Generating enhanced display..."
        :: (chunks.map (uiTokenFor provider_type message_id)
          ++ [OutFrame.chatDone message_id none]) ∧
    enhancedFramePattern message_id
      (processWithEnhancement (some provider_type) uiFramework displayEnhancedText
        chunks true (some message_id) freshUuid thread_id source freshId2) = true ∧
    processWithEnhancement (some provider_type) uiFramework displayEnhancedText
        chunks false (some message_id) freshUuid thread_id source freshId2
      = OutFrame.enhancementStarted "Generating enhanced display..."
        :: (chunks.map (uiTokenFor provider_type message_id)
          ++ [sendSimpleResponse provider_type uiFramework
            "Failed to generate enhanced visualization" thread_id "text_chat"
            freshId2]) := by
  refine ⟨rfl, ?_, rfl⟩
  show enhancedFramePattern message_id
    (OutFrame.enhancementStarted "Generating enhanced display..."
      :: (chunks.map (uiTokenFor provider_type message_id)
        ++ [OutFrame.chatDone message_id none])) = true
  apply enhancedFramePattern_of_tokens
  rw [List.all_eq_true]
  intro f hf
  obtain ⟨c, _, hc⟩ := List.mem_map.mp hf
  rw [← hc]
  unfold uiTokenFor isUiTokenWithId
  by_cases hp : htmlProviderTypes.contains (lowerString provider_type)
  · rw [if_pos hp]
    simp
  · rw [if_neg hp]
    simp

/-! ## Connection teardown

Embedding of `ConnectionManager.cleanup_connection`
(`app/connection_manager.py`).  The body is a sequence of steps, each
wrapped in exception handling in the source; a step's side effects outside
the registry (closing handles, deleting the file) are not needed by the
claim and are represented by the step trace.  `fails` is an oracle saying
which steps raise. -/

/-- Teardown steps of `cleanup_connection`, in source order. -/
inductive CleanupStep where
  | publishDisconnecting
  | cancelWorker
  | unsubscribeBus
  | closeMcpClient
  | cleanupVizProvider
  | deleteTempFile
  | drainQueues
  | removeFromRegistry
deriving Repr, DecidableEq

/-- Connection context as `cleanup_connection` reads it: which optional
resources are present. -/
structure ConnCtx where
  processor_task : Bool := true
  voice_agent : Bool := false
  mcp_client : Bool := true
  visualization_provider : Bool := true
  temp_mcp_config_path : Bool := false
deriving Repr, DecidableEq

/-- Steps `cleanup_connection` attempts for a context, in source order:
the state publish, then each resource-conditional step, then the
unconditional queue drain and registry removal. -/
def cleanupSteps (ctx : ConnCtx) : List CleanupStep :=
  [CleanupStep.publishDisconnecting]
    ++ (if ctx.processor_task then [CleanupStep.cancelWorker] else [])
    ++ (if ctx.voice_agent then [CleanupStep.unsubscribeBus] else [])
    ++ (if ctx.mcp_client then [CleanupStep.closeMcpClient] else [])
    ++ (if ctx.visualization_provider then [CleanupStep.cleanupVizProvider] else [])
    ++ (if ctx.temp_mcp_config_path then [CleanupStep.deleteTempFile] else [])
    ++ [CleanupStep.drainQueues, CleanupStep.removeFromRegistry]

/-- Exception protection of each step as written in the source: the state
publish is in a bare `try/except pass`; the worker wait catches its only
failure modes (`CancelledError`, `TimeoutError`); the bus unsubscribe,
client close, provider cleanup and temp-file unlink are each in
`try/except` with logging; the queue drain catches per-item errors; the
final `del` of a key checked present cannot raise. -/
def cleanupGuarded : CleanupStep → Bool
  | CleanupStep.publishDisconnecting => true
  | CleanupStep.cancelWorker => true
  | CleanupStep.unsubscribeBus => true
  | CleanupStep.closeMcpClient => true
  | CleanupStep.cleanupVizProvider => true
  | CleanupStep.deleteTempFile => true
  | CleanupStep.drainQueues => true
  | CleanupStep.removeFromRegistry => true

/-- Run steps in order: an unguarded failing step aborts the remainder; a
guarded one is logged and execution continues.  Returns the executed steps
and whether the sequence completed. -/
def runGuardedSteps : List CleanupStep → (CleanupStep → Bool) →
    (CleanupStep → Bool) → List CleanupStep × Bool
  | [], _, _ => ([], true)
  | s :: rest, guarded, fails =>
    if fails s && !(guarded s) then ([s], false)
    else
      let r := runGuardedSteps rest guarded fails
      (s :: r.1, r.2)

/-- Translation of `cleanup_connection`: a no-op for unknown connection
ids; otherwise the teardown steps run in order with their source-level
exception protection and the context is removed from the registry when the
sequence reaches its final step. -/
def cleanupConnection (registry : List (String × ConnCtx)) (connection_id : String)
    (fails : CleanupStep → Bool) : List (String × ConnCtx) × List CleanupStep :=
  match lookupA registry connection_id with
  | none => (registry, [])
  | some ctx =>
    let r := runGuardedSteps (cleanupSteps ctx) cleanupGuarded fails
    (if r.2 then eraseA registry connection_id else registry, r.1)

/-- Teardown steps in the order the spec lists them. -/
def cleanupOrder : List CleanupStep :=
  [CleanupStep.publishDisconnecting, CleanupStep.cancelWorker,
    CleanupStep.unsubscribeBus, CleanupStep.closeMcpClient,
    CleanupStep.cleanupVizProvider, CleanupStep.deleteTempFile,
    CleanupStep.drainQueues, CleanupStep.removeFromRegistry]

/-- Which steps apply to a context (the conditional ones only when the
resource is present). -/
def cleanupApplicable (ctx : ConnCtx) : CleanupStep → Bool
  | CleanupStep.publishDisconnecting => true
  | CleanupStep.cancelWorker => ctx.processor_task
  | CleanupStep.unsubscribeBus => ctx.voice_agent
  | CleanupStep.closeMcpClient => ctx.mcp_client
  | CleanupStep.cleanupVizProvider => ctx.visualization_provider
  | CleanupStep.deleteTempFile => ctx.temp_mcp_config_path
  | CleanupStep.drainQueues => true
  | CleanupStep.removeFromRegistry => true

theorem cleanupSteps_eq_filter (ctx : ConnCtx) :
    cleanupSteps ctx = cleanupOrder.filter (cleanupApplicable ctx) := by
  obtain ⟨p, v, m, viz, t⟩ := ctx
  cases p <;> cases v <;> cases m <;> cases viz <;> cases t <;> rfl

theorem runGuardedSteps_all_guarded (steps : List CleanupStep)
    (guarded fails : CleanupStep → Bool)
    (h : ∀ s ∈ steps, guarded s = true) :
    runGuardedSteps steps guarded fails = (steps, true) := by
  induction steps with
  | nil => rfl
  | cons s rest ih =>
    unfold runGuardedSteps
    rw [h s (List.mem_cons_self s rest), ih (fun x hx => h x (List.mem_cons_of_mem s hx))]
    simp

/-- C7: teardown of a registered connection performs exactly the
applicable steps, in the spec's order — publish disconnecting, cancel the
worker, unsubscribe from the bus, close the tool-server client, clean up
the UI provider, delete the temporary file, drain the queues, remove from
the registry — regardless of which steps fail (each is best-effort), and
the context is always removed from the registry at the end. -/
theorem cleanup_ordered_best_effort (registry : List (String × ConnCtx))
    (connection_id : String) (ctx : ConnCtx) (fails : CleanupStep → Bool)
    (h : lookupA registry connection_id = some ctx) :
    (cleanupConnection registry connection_id fails).2
        = cleanupOrder.filter (cleanupApplicable ctx) ∧
    lookupA (cleanupConnection registry connection_id fails).1 connection_id
        = none := by
  have hall : ∀ s ∈ cleanupSteps ctx, cleanupGuarded s = true := by
    intro s _
    cases s <;> rfl
  have hrun := runGuardedSteps_all_guarded (cleanupSteps ctx) cleanupGuarded fails hall
  unfold cleanupConnection
  rw [h]
  constructor
  · show (runGuardedSteps (cleanupSteps ctx) cleanupGuarded fails).1 = _
    rw [hrun, ← cleanupSteps_eq_filter]
  · show lookupA (if (runGuardedSteps (cleanupSteps ctx) cleanupGuarded fails).2
        then eraseA registry connection_id else registry) connection_id = none
    rw [hrun]
    show lookupA (eraseA registry connection_id) connection_id = none
    rw [lookupA_eraseA, if_pos rfl]

/-- Registry with one fully provisioned connection, witnessing C7. -/
def c7Registry : List (String × ConnCtx) :=
  [("c", { processor_task := true, voice_agent := true, mcp_client := true,
           visualization_provider := true, temp_mcp_config_path := true })]

/-- C7 witness: even with every step failing, teardown of the provisioned
connection runs all eight steps in order and removes the context. -/
theorem cleanup_ordered_best_effort_witness :
    lookupA c7Registry "c" = some
      { processor_task := true, voice_agent := true, mcp_client := true,
        visualization_provider := true, temp_mcp_config_path := true } ∧
    ((cleanupConnection c7Registry "c" (fun _ => true)).2
        = cleanupOrder.filter (cleanupApplicable
          { processor_task := true, voice_agent := true, mcp_client := true,
            visualization_provider := true, temp_mcp_config_path := true }) ∧
      lookupA (cleanupConnection c7Registry "c" (fun _ => true)).1 "c" = none) :=
  ⟨by decide,
    cleanup_ordered_best_effort c7Registry "c"
      { processor_task := true, voice_agent := true, mcp_client := true,
        visualization_provider := true, temp_mcp_config_path := true }
      (fun _ => true) (by decide)⟩

/-! ## Control-channel handshake

Embedding of `websocket_per_connection_messages` and
`_wait_for_configuration` (`app/routes/per_connection_chat.py`).  The
outcome of awaiting the first frame within the 30 s deadline is an oracle;
everything the handler does with it is translated. -/

/-- Connection states (`app.models.ConnectionState`). -/
inductive ConnState where
  | connecting
  | configReceived
  | validating
  | mcpInitializing
  | vizInitializing
  | ready
  | active
  | error
  | disconnecting
  | closed
deriving Repr, DecidableEq

/-- Frames the handler writes on the control channel. -/
inductive CtrlFrame where
  | connectionEstablished (connection_id : String)
  | errorFrame (message : String) (error_code : Option String)
      (connection_id : Option String)
  | stateFrame (state : ConnState) (message : String)
deriving Repr, DecidableEq

/-- Outcome of awaiting the configuration frame: the 30 s deadline
elapsed, the payload failed to decode or validate, some other exception
was raised, or a well-formed configuration arrived. -/
inductive ConfigWaitOutcome where
  | timeout
  | badPayload (err : String)
  | otherError (err : String)
  | configOk
deriving Repr, DecidableEq

/-- Configuration handshake deadline in seconds (`asyncio.wait_for(...,
timeout=30.0)`). -/
def configTimeoutSeconds : Nat := 30

/-- Translation of `_wait_for_configuration`: frames sent and success
flag. On timeout an error frame with machine code `CONFIG_TIMEOUT`; on an
undecodable payload `INVALID_CONFIG_FORMAT`; on any other exception
`CONFIG_ERROR`; on a decoded configuration, `configure_connection` runs
(its frames and result passed in as oracles). -/
def waitForConfiguration (connection_id : String) (outcome : ConfigWaitOutcome)
    (configureResult : Bool) (configureFrames : List CtrlFrame) :
    List CtrlFrame × Bool :=
  match outcome with
  | ConfigWaitOutcome.timeout =>
    ([CtrlFrame.errorFrame "Configuration timeout. Please send config within 30 seconds."
        (some "CONFIG_TIMEOUT") (some connection_id)], false)
  | ConfigWaitOutcome.badPayload err =>
    ([CtrlFrame.errorFrame ("Invalid configuration format: " ++ err)
        (some "INVALID_CONFIG_FORMAT") (some connection_id)], false)
  | ConfigWaitOutcome.otherError err =>
    ([CtrlFrame.errorFrame ("Configuration error: " ++ err)
        (some "CONFIG_ERROR") (some connection_id)], false)
  | ConfigWaitOutcome.configOk => (configureFrames, configureResult)

/-- Observable result of one handler run. -/
structure HandlerRun where
  frames : List CtrlFrame
  handshake_ok : Bool
  configure_called : Bool
  cleaned_up : Bool
deriving Repr, DecidableEq

/-- Translation of `websocket_per_connection_messages`: send
`connection_established`, run the configuration wait, on success run the
sender/receiver loops (their frames passed in as an oracle), and in the
`finally` block always clean the connection up — which publishes the
`disconnecting` state. -/
def websocketPerConnectionMessages (connection_id : String)
    (outcome : ConfigWaitOutcome) (configureResult : Bool)
    (configureFrames loopFrames : List CtrlFrame) : HandlerRun :=
  let w := waitForConfiguration connection_id outcome configureResult configureFrames
  { frames :=
      CtrlFrame.connectionEstablished connection_id ::
        (w.1 ++ (if w.2 then loopFrames else [])
          ++ [CtrlFrame.stateFrame ConnState.disconnecting "Cleaning up connection..."]),
    handshake_ok := w.2,
    configure_called :=
      match outcome with
      | ConfigWaitOutcome.configOk => true
      | _ => false,
    cleaned_up := true }

/-- C9 (counterexample): on a configuration timeout the channel receives an
error frame whose machine code is the literal `"CONFIG_TIMEOUT"` — no frame
carries the spec's lowercase code `"config_timeout"`. -/
theorem config_timeout_code_cex :
    ((websocketPerConnectionMessages "c1" ConfigWaitOutcome.timeout false [] []).frames.filter
      (fun f => match f with
        | CtrlFrame.errorFrame _ ec _ => ec == some "config_timeout"
        | _ => false)) = [] ∧
    ((websocketPerConnectionMessages "c1" ConfigWaitOutcome.timeout false [] []).frames.filter
      (fun f => match f with
        | CtrlFrame.errorFrame _ ec _ => ec == some "CONFIG_TIMEOUT"
        | _ => false)).length = 1 := by
  decide

/-- C9 (amended): when no configuration frame arrives within the 30-second
deadline, the channel receives an error frame with machine code
`CONFIG_TIMEOUT` (the spec stylizes it `config_timeout`), the handshake
returns failure, `configure_connection` is never invoked, teardown always
runs, and the only state published is `disconnecting` — never `ready` or
`active`. -/
theorem config_timeout_closes (connection_id : String) (configureResult : Bool)
    (configureFrames loopFrames : List CtrlFrame) :
    websocketPerConnectionMessages connection_id ConfigWaitOutcome.timeout
        configureResult configureFrames loopFrames
      = { frames := [CtrlFrame.connectionEstablished connection_id,
            CtrlFrame.errorFrame
              "Configuration timeout. Please send config within 30 seconds."
              (some "CONFIG_TIMEOUT") (some connection_id),
            CtrlFrame.stateFrame ConnState.disconnecting "Cleaning up connection..."],
          handshake_ok := false, configure_called := false, cleaned_up := true } ∧
    configTimeoutSeconds = 30 ∧
    (∀ s msg, CtrlFrame.stateFrame s msg ∈
        (websocketPerConnectionMessages connection_id ConfigWaitOutcome.timeout
          configureResult configureFrames loopFrames).frames →
      s = ConnState.disconnecting) := by
  refine ⟨rfl, rfl, ?_⟩
  intro s msg hmem
  show s = ConnState.disconnecting
  have : CtrlFrame.stateFrame s msg ∈
      [CtrlFrame.connectionEstablished connection_id,
        CtrlFrame.errorFrame
          "Configuration timeout. Please send config within 30 seconds."
          (some "CONFIG_TIMEOUT") (some connection_id),
        CtrlFrame.stateFrame ConnState.disconnecting "Cleaning up connection..."] :=
    hmem
  simp at this
  exact this.1

/-- C9 witness: the amended theorem at a concrete connection id. -/
theorem config_timeout_closes_witness :
    (websocketPerConnectionMessages "c1" ConfigWaitOutcome.timeout false [] []).handshake_ok
        = false ∧
    (websocketPerConnectionMessages "c1" ConfigWaitOutcome.timeout false [] []).frames.any
      (fun f => match f with
        | CtrlFrame.errorFrame _ ec _ => ec == some "CONFIG_TIMEOUT"
        | _ => false) = true := by
  have h := (config_timeout_closes "c1" false [] []).1
  rw [h]
  exact ⟨rfl, by decide⟩

end Ada
